import Mathlib

/-!
# Authentication and session refresh of the REST API

A shallow embedding of `application/auth.go`, `application/api-middleware.go`
and `application/handlers.go`.  Go strings are Lean strings, instants are
nanoseconds since the Unix epoch, Go errors are their messages, and every
`time.Now()` the code performs is an explicit argument.

The code calls into `github.com/golang-jwt/jwt/v5`, `crypto/hmac`,
`encoding/base64` and `encoding/json`.  The control flow of the JWT library is
embedded; the byte-level primitives underneath it (the hash functions, the
base64url codec, the JSON codec) are the fields of `Prim`, and the round-trip
laws the proofs rely on are `Prim.Lawful`.
-/

set_option autoImplicit false

namespace RestApi

/-! ## Go runtime -/

/-- Pieces of a character list cut at every occurrence of `sep`: Go's
`strings.Split` for a separator of one character. -/
def splitChars (sep : Char) : List Char → List (List Char)
  | [] => [[]]
  | c :: cs =>
    if c = sep then [] :: splitChars sep cs
    else
      match splitChars sep cs with
      | [] => [[c]]
      | p :: ps => (c :: p) :: ps

/-- Go `strings.Split(s, sep)` where `sep` is a single character. -/
def stringsSplit (s : String) (sep : Char) : List String :=
  (splitChars sep s.data).map String.mk

/-- Go `strings.HasPrefix(s, p)`. -/
def stringsHasPrefix (s p : String) : Bool :=
  p.data.isPrefixOf s.data

/-- Go `time.Second`; a `time.Duration` is an integer count of nanoseconds, and
an instant (`time.Time`) is an integer count of nanoseconds since the Unix
epoch, read from the wall clock. -/
def Second : Int := 1000000000

/-- Go `time.Minute`. -/
def Minute : Int := 60 * Second

/-- Go `time.Hour`. -/
def Hour : Int := 60 * Minute

/-- Largest `time.Duration` (int64 nanoseconds). -/
def maxDuration : Int := 9223372036854775807

/-- Smallest `time.Duration`. -/
def minDuration : Int := -9223372036854775808

/-- Go `t.Unix()`: whole seconds since the epoch, rounded down. -/
def unixSeconds (t : Int) : Int := t / Second

/-- Go `time.Unix(sec, 0)`. -/
def timeUnix (sec : Int) : Int := sec * Second

/-- Go `t.Sub(u)`: the difference, saturated to the range of `time.Duration`. -/
def timeSub (t u : Int) : Int :=
  if t - u > maxDuration then maxDuration
  else if t - u < minDuration then minDuration
  else t - u

/-- The decimal digit `d` as a character. -/
def digitChar (d : Nat) : Char := Char.ofNat (48 + d)

/-- Decimal digits of `n`, most significant first; `fuel` bounds the recursion. -/
def natDigits : Nat → Nat → List Char
  | 0, _ => []
  | fuel + 1, n =>
    if n < 10 then [digitChar n]
    else natDigits fuel (n / 10) ++ [digitChar (n % 10)]

/-- Go `fmt.Sprint(i)` for an integer. -/
def fmtSprint (i : Int) : String :=
  match i with
  | Int.ofNat n => String.mk (natDigits (n + 1) n)
  | Int.negSucc n => String.mk ('-' :: natDigits (n + 2) (n + 1))

/-- Value of a string of decimal digits, or `none` when a character is not a digit. -/
def digitsValue (acc : Nat) : List Char → Option Nat
  | [] => some acc
  | c :: cs =>
    if 48 ≤ c.toNat ∧ c.toNat ≤ 57 then digitsValue (acc * 10 + (c.toNat - 48)) cs
    else none

/-- An optional sign followed by at least one decimal digit. -/
def parseDecimal (s : List Char) : Option Int :=
  match s with
  | [] => none
  | c :: cs =>
    if c = '-' then
      if cs = [] then none else (digitsValue 0 cs).map (fun n => - (n : Int))
    else if c = '+' then
      if cs = [] then none else (digitsValue 0 cs).map (fun n => (n : Int))
    else (digitsValue 0 (c :: cs)).map (fun n => (n : Int))

/-- Go `strconv.Atoi` on a 64-bit platform.  The message of an error names the
input as it is, where the library writes it quoted by `strconv.Quote`. -/
def strconvAtoi (s : String) : Except String Int :=
  match parseDecimal s.data with
  | none => Except.error ("strconv.Atoi: parsing " ++ s ++ ": invalid syntax")
  | some v =>
    if v < -9223372036854775808 ∨ 9223372036854775807 < v then
      Except.error ("strconv.Atoi: parsing " ++ s ++ ": value out of range")
    else Except.ok v

/-! ## golang-jwt/jwt/v5 -/

/-- A byte. -/
abbrev Byte := Fin 256

/-- Go `[]byte(s)`: the UTF-8 bytes of a string. -/
def stringBytes (s : String) : List Byte :=
  s.data.flatMap (fun c => (String.utf8EncodeChar c).map (fun b => b.val))

/-- A JSON value a claim map of this program holds. -/
inductive JVal where
  | str (s : String)
  | num (n : Int)
  | bool (b : Bool)
  deriving DecidableEq, Repr

/-- Go `jwt.MapClaims`, a `map[string]interface{}`, kept as an association list
without duplicate keys. -/
abbrev MapClaims := List (String × JVal)

/-- Map assignment `m[k] = v`. -/
def mapSet (m : MapClaims) (k : String) (v : JVal) : MapClaims :=
  m.filter (fun e => e.1 != k) ++ [(k, v)]

/-- Map lookup `m[k]`. -/
def mapGet (m : MapClaims) (k : String) : Option JVal :=
  (m.find? (fun e => e.1 == k)).map (fun e => e.2)

/-- Go `jwt.RegisteredClaims`; a `*NumericDate` is an optional count of whole
seconds since the epoch. -/
structure RegisteredClaims where
  Issuer : String
  Subject : String
  Audience : List String
  ExpiresAt : Option Int
  NotBefore : Option Int
  IssuedAt : Option Int
  ID : String
  deriving DecidableEq, Repr

/-- The `Claims` struct of auth.go. -/
structure Claims extends RegisteredClaims where
  Username : String
  deriving DecidableEq, Repr

/-- The string under key `k`, or the empty string. -/
def mapStr (m : MapClaims) (k : String) : String :=
  match mapGet m k with
  | some (JVal.str s) => s
  | _ => ""

/-- The number under key `k`. -/
def mapNum (m : MapClaims) (k : String) : Option Int :=
  match mapGet m k with
  | some (JVal.num n) => some n
  | _ => none

/-- What decoding the JSON object of a claim map into the `Claims` struct gives:
the fields are filled from the keys `iss`, `sub`, `aud` and `exp`; `name` and
`admin` name no field of the struct and are dropped. -/
def claimsOfMap (m : MapClaims) : Claims :=
  { Issuer := mapStr m "iss"
    Subject := mapStr m "sub"
    Audience := match mapGet m "aud" with
      | some (JVal.str s) => [s]
      | _ => []
    ExpiresAt := mapNum m "exp"
    NotBefore := none
    IssuedAt := none
    ID := ""
    Username := "" }

/-- The whole numbers of seconds a JSON number carries exactly through the
`float64` the library decodes a `NumericDate` from. -/
def exactSeconds (n : Int) : Bool :=
  decide (-9007199254740992 ≤ n ∧ n ≤ 9007199254740992)

/-- The claim maps whose decoding `claimsOfMap` describes: every key is one of
the six this program writes, with a value of the JSON type the struct field
expects (and an `exp` that `float64` holds exactly), and no key occurs twice. -/
def wellTyped (m : MapClaims) : Bool :=
  m.all (fun e =>
    match e.2 with
    | JVal.str _ => e.1 == "name" || e.1 == "sub" || e.1 == "aud" || e.1 == "iss"
    | JVal.num n => e.1 == "exp" && exactSeconds n
    | JVal.bool _ => e.1 == "admin")
  && decide ((m.map (fun e => e.1)).Nodup)

/-- The hash functions behind the HMAC signing methods. -/
inductive HashAlg where
  | SHA256
  | SHA384
  | SHA512
  deriving DecidableEq, Repr

/-- Block size in bytes of each hash function. -/
def HashAlg.blockSize : HashAlg → Nat
  | HashAlg.SHA256 => 64
  | HashAlg.SHA384 => 128
  | HashAlg.SHA512 => 128

/-- The byte-level primitives of the Go standard library the JWT library is
built on. -/
structure Prim where
  /-- The digests `crypto/sha256` and `crypto/sha512` compute. -/
  hash : HashAlg → List Byte → List Byte
  /-- Go `base64.RawURLEncoding.EncodeToString`. -/
  encodeSegment : List Byte → String
  /-- Go `base64.RawURLEncoding.DecodeString`. -/
  decodeSegment : String → Except String (List Byte)
  /-- Go `json.Marshal` of the token header with the given `alg` and `typ` JWT. -/
  marshalHeader : String → List Byte
  /-- Go `json.Unmarshal` of a token header, then the string under `alg`. -/
  unmarshalHeader : List Byte → Except String (Option String)
  /-- Go `json.Marshal` of a claim map. -/
  marshalClaims : MapClaims → List Byte
  /-- Go JSON decoding of a claim segment into the `Claims` struct. -/
  decodeClaims : List Byte → Except String Claims

/-- The laws of the primitives the proofs rely on: base64url decoding inverts
encoding and the encoded text has neither a space nor a dot; JSON decoding
inverts encoding on the token header and on well-typed claim maps.  The hash
functions are unconstrained. -/
structure Prim.Lawful (P : Prim) : Prop where
  decode_encode : ∀ b, P.decodeSegment (P.encodeSegment b) = Except.ok b
  encode_alphabet : ∀ b c, c ∈ (P.encodeSegment b).data → c ≠ ' ' ∧ c ≠ '.'
  header_roundtrip : ∀ alg, P.unmarshalHeader (P.marshalHeader alg) = Except.ok (some alg)
  claims_roundtrip : ∀ m, wellTyped m = true →
    P.decodeClaims (P.marshalClaims m) = Except.ok (claimsOfMap m)

/-- The key block of `crypto/hmac`: a key longer than the block is hashed
first, and the result is copied into a zeroed block. -/
def hmacBlockKey (P : Prim) (h : HashAlg) (key : List Byte) : List Byte :=
  let k := if key.length > h.blockSize then P.hash h key else key
  k.take h.blockSize ++ List.replicate (h.blockSize - k.length) 0

/-- HMAC of `msg` under `key` (`crypto/hmac`). -/
def hmac (P : Prim) (h : HashAlg) (key msg : List Byte) : List Byte :=
  let k := hmacBlockKey P h key
  P.hash h (k.map (fun b => b ^^^ 0x5c) ++ P.hash h (k.map (fun b => b ^^^ 0x36) ++ msg))

/-- The signing methods registered with the library: the HMAC family, and the
RSA, RSA-PSS, ECDSA, Ed25519 and none methods, kept by their `alg` name. -/
inductive SigningMethod where
  | HMAC (h : HashAlg)
  | other (alg : String)
  deriving DecidableEq, Repr

/-- Go `jwt.SigningMethodHS256`. -/
def SigningMethodHS256 : SigningMethod := SigningMethod.HMAC HashAlg.SHA256

/-- Go `method.Alg()`. -/
def SigningMethod.Alg : SigningMethod → String
  | SigningMethod.HMAC HashAlg.SHA256 => "HS256"
  | SigningMethod.HMAC HashAlg.SHA384 => "HS384"
  | SigningMethod.HMAC HashAlg.SHA512 => "HS512"
  | SigningMethod.other alg => alg

/-- Go `jwt.GetSigningMethod(alg)`. -/
def GetSigningMethod (alg : String) : Option SigningMethod :=
  if alg = "HS256" then some (SigningMethod.HMAC HashAlg.SHA256)
  else if alg = "HS384" then some (SigningMethod.HMAC HashAlg.SHA384)
  else if alg = "HS512" then some (SigningMethod.HMAC HashAlg.SHA512)
  else if alg ∈ ["RS256", "RS384", "RS512", "PS256", "PS384", "PS512",
      "ES256", "ES384", "ES512", "EdDSA", "none"] then some (SigningMethod.other alg)
  else none

/-- Go `method.Sign(signingString, key)` for a key of type `[]byte`. -/
def SigningMethod.Sign (P : Prim) (m : SigningMethod) (signingString : String)
    (key : List Byte) : Except String (List Byte) :=
  match m with
  | SigningMethod.HMAC h => Except.ok (hmac P h key (stringBytes signingString))
  | SigningMethod.other _ => Except.error "key is of invalid type"

/-- Go `method.Verify(signingString, sig, key)` for a key of type `[]byte`.  The
methods outside the HMAC family all refuse such a key; the message is the one
of the RSA, RSA-PSS, ECDSA and Ed25519 methods, and the none method words its
refusal differently. -/
def SigningMethod.Verify (P : Prim) (m : SigningMethod) (signingString : String)
    (sig key : List Byte) : Except String Unit :=
  match m with
  | SigningMethod.HMAC h =>
    if sig = hmac P h key (stringBytes signingString) then Except.ok ()
    else Except.error "signature is invalid"
  | SigningMethod.other _ => Except.error "key is of invalid type"

/-- Go `token.SignedString(key)` of `jwt.New(method)` carrying `claims`. -/
def SignedString (P : Prim) (method : SigningMethod) (claims : MapClaims)
    (key : List Byte) : Except String String := do
  let sstr := P.encodeSegment (P.marshalHeader method.Alg) ++ "."
    ++ P.encodeSegment (P.marshalClaims claims)
  let sig ← method.Sign P sstr key
  pure (sstr ++ "." ++ P.encodeSegment sig)

/-- Go `jwt.Token` as the parser leaves it before verification, with the text
the signature covers and the signature segment. -/
structure Token where
  Method : SigningMethod
  Claims : Claims
  signingString : String
  signatureSegment : String
  deriving DecidableEq, Repr

/-- Go `Parser.ParseUnverified` into a `*Claims`.  The messages are those of the
library's parser.go under the sentences of its errors.go; when the header does
not decode and the string starts with `bearer `, the library words the failure
differently, under the same `token is malformed`. -/
def ParseUnverified (P : Prim) (tokenString : String) : Except String Token :=
  match stringsSplit tokenString '.' with
  | [p0, p1, p2] =>
    match P.decodeSegment p0 with
    | Except.error e =>
      Except.error ("token is malformed: could not base64 decode header: " ++ e)
    | Except.ok headerBytes =>
      match P.unmarshalHeader headerBytes with
      | Except.error e =>
        Except.error ("token is malformed: could not JSON decode header: " ++ e)
      | Except.ok alg =>
        match P.decodeSegment p1 with
        | Except.error e =>
          Except.error ("token is malformed: could not base64 decode claim: " ++ e)
        | Except.ok claimBytes =>
          match P.decodeClaims claimBytes with
          | Except.error e =>
            Except.error ("token is malformed: could not JSON decode claim: " ++ e)
          | Except.ok claims =>
            match alg with
            | none =>
              Except.error "token is unverifiable: signing method (alg) is unspecified"
            | some a =>
              match GetSigningMethod a with
              | none =>
                Except.error "token is unverifiable: signing method (alg) is unavailable"
              | some method =>
                Except.ok
                  { Method := method
                    Claims := claims
                    signingString := p0 ++ "." ++ p1
                    signatureSegment := p2 }
  | _ => Except.error "token is malformed: token contains an invalid number of segments"

/-- The errors of the default `Validator` (no leeway, no expected issuer,
audience or subject, `iat` not verified): `exp` must lie after `now` and `nbf`
not after it, each only when present.  The instants are compared as integers
without bound, which is the library's comparison as long as `exp` and `nbf` lie
below 2^63 - 62135596800 seconds, where the addition inside Go's `time.Unix`
does not wrap. -/
def validationErrors (c : Claims) (now : Int) : List String :=
  (match c.ExpiresAt with
    | some e => if now < timeUnix e then [] else ["token is expired"]
    | none => [])
  ++ (match c.NotBefore with
    | some n => if now < timeUnix n then ["token is not valid yet"] else []
    | none => [])

/-- The claim validation step of the parser: the claims, or the errors of the
validator, joined by `errors.Join`, under the library's
`token has invalid claims`. -/
def validateClaims (c : Claims) (now : Int) : Except String Claims :=
  match validationErrors c now with
  | [] => Except.ok c
  | errs => Except.error ("token has invalid claims: " ++ "\n".intercalate errs)

/-- Go `jwt.ParseWithClaims(tokenString, claims, keyFunc)` with the default
parser, at clock reading `now`; the result is the error, or the claims the
call has written into `claims`.  The key function runs before the signature
segment is decoded, as in v5.0; later releases decode first, which changes
only which of two errors is reported. -/
def ParseWithClaims (P : Prim) (tokenString : String)
    (keyFunc : Token → Except String (List Byte)) (now : Int) : Except String Claims :=
  match ParseUnverified P tokenString with
  | Except.error e => Except.error e
  | Except.ok token =>
    match keyFunc token with
    | Except.error e =>
      Except.error ("token is unverifiable: error while executing keyfunc: " ++ e)
    | Except.ok key =>
      match P.decodeSegment token.signatureSegment with
      | Except.error e =>
        Except.error ("token is malformed: could not base64 decode signature: " ++ e)
      | Except.ok sig =>
        match token.Method.Verify P token.signingString sig key with
        | Except.error e => Except.error ("token signature is invalid: " ++ e)
        | Except.ok _ => validateClaims token.Claims now

/-! ## net/http -/

/-- Go `http.Header`: the values recorded under each key. -/
abbrev Header := List (String × List String)

/-- Go `h.Get(key)`: the first value under `key`, or the empty string. -/
def Header.Get (h : Header) (key : String) : String :=
  match h.find? (fun e => e.1 == key) with
  | some (_, v :: _) => v
  | _ => ""

/-- Go `h.Add(key, value)`. -/
def Header.Add (h : Header) (key value : String) : Header :=
  if h.any (fun e => e.1 == key) then
    h.map (fun e => if e.1 == key then (e.1, e.2 ++ [value]) else e)
  else h ++ [(key, [value])]

/-- Go `h.Set(key, value)`. -/
def Header.Set (h : Header) (key value : String) : Header :=
  h.filter (fun e => e.1 != key) ++ [(key, [value])]

/-- Go `url.Values`, with the same `Get`. -/
abbrev Values := Header

/-- Go `http.SameSite`. -/
inductive SameSite where
  | SameSiteDefaultMode
  | SameSiteLaxMode
  | SameSiteStrictMode
  | SameSiteNoneMode
  deriving DecidableEq, Repr

/-- Go `http.Cookie`, with the fields the handlers set. -/
structure Cookie where
  Name : String
  Value : String
  Path : String
  Domain : String
  Expires : Int
  MaxAge : Int
  Secure : Bool
  HttpOnly : Bool
  SameSite : SameSite
  deriving DecidableEq, Repr

/-- Go `http.Request`: the method, the headers, the cookies `req.Cookies()`
returns, and what `req.ParseForm()` yields (the form values, or its error). -/
structure Request where
  Method : String
  Header : Header
  Cookies : List Cookie
  Form : Except String Values

/-- The access and refresh token the handlers answer with. -/
structure TokenPairs where
  AccessToken : String
  RefreshToken : String
  deriving DecidableEq, Repr

/-- A JSON document written as a response body. -/
inductive Payload where
  | tokenPairs (t : TokenPairs)
  | error (message : String)
  deriving DecidableEq, Repr

/-- What a `http.ResponseWriter` has received: the headers, the status code of
the first `WriteHeader`, the cookies of `http.SetCookie` in order, the body. -/
structure ResponseWriter where
  Header : Header
  Code : Option Nat
  Cookies : List Cookie
  Body : Option Payload
  deriving DecidableEq, Repr

/-- A recorder nothing has been written to. -/
def newRecorder : ResponseWriter :=
  { Header := [], Code := none, Cookies := [], Body := none }

/-- Go `resp.WriteHeader(status)`: only the first call sets the status. -/
def ResponseWriter.WriteHeader (resp : ResponseWriter) (status : Nat) : ResponseWriter :=
  match resp.Code with
  | some _ => resp
  | none => { resp with Code := some status }

/-- Go `http.SetCookie(resp, cookie)`. -/
def SetCookie (resp : ResponseWriter) (cookie : Cookie) : ResponseWriter :=
  { resp with Cookies := resp.Cookies ++ [cookie] }

/-- A request handler; `next.ServeHTTP(resp, req)` is the application `next resp req`. -/
abbrev Handler := ResponseWriter → Request → ResponseWriter

/-- The status codes of `net/http` the handlers use. -/
def StatusOK : Nat := 200

def StatusAccepted : Nat := 202

def StatusBadRequest : Nat := 400

def StatusUnauthorized : Nat := 401

def StatusTooEarly : Nat := 425

/-! ## The application -/

/-- Modelled from the spec: `data.User`, declared in the repository's data
package, which is not among the sources; the spec gives a numeric identifier,
the display name parts, an email and an administrative flag. -/
structure User where
  ID : Int
  FirstName : String
  LastName : String
  Email : String
  Password : String
  IsAdmin : Int
  deriving DecidableEq, Repr

/-- Modelled from the spec: the identity lookups of `repository.DatabaseRepo`,
`get_user(id)` and `get_user_by_email(email)`, each a user or an error. -/
structure DatabaseRepo where
  GetUser : Int → Except String User
  GetUserByEmail : String → Except String User

/-- The `Application` struct of application.go. -/
structure Application where
  Datasource : String
  DB : DatabaseRepo
  Domain : String
  JWTSecret : String

/-- The package variables of auth.go, which the tests reassign. -/
structure Globals where
  jwtTokenExpiry : Int
  RefreshTokenExpiry : Int

/-- The values auth.go initialises them with: 15 minutes and 24 hours. -/
def defaultGlobals : Globals :=
  { jwtTokenExpiry := Minute * 15, RefreshTokenExpiry := Hour * 24 }

/-- The constant `refreshCookieName` of handlers.go. -/
def refreshCookieName : String := "__Host-refresh_token"

/-- Modelled from the spec: `app.writeJSON`, defined outside the sources; it
answers with the given status and the JSON document. -/
def writeJSON (resp : ResponseWriter) (status : Nat) (data : Payload) : ResponseWriter :=
  match resp.Code with
  | some _ => { resp with Body := some data }
  | none => { resp with Code := some status, Body := some data }

/-- Modelled from the spec: `app.errorJSON`, defined outside the sources; it
answers with the given status and the message of the error. -/
def errorJSON (resp : ResponseWriter) (err : String) (status : Nat) : ResponseWriter :=
  writeJSON resp status (Payload.error err)

/-- The claim map of the access token (auth.go, lines 31 to 42). -/
def accessTokenClaims (g : Globals) (app : Application) (user : User) (now : Int) :
    MapClaims :=
  let claims : MapClaims := []
  let claims := mapSet claims "name" (JVal.str (user.FirstName ++ " " ++ user.LastName))
  let claims := mapSet claims "sub" (JVal.str (fmtSprint user.ID))
  let claims := mapSet claims "aud" (JVal.str app.Domain)
  let claims := mapSet claims "iss" (JVal.str app.Domain)
  let claims := mapSet claims "exp" (JVal.num (unixSeconds (now + g.jwtTokenExpiry)))
  if user.IsAdmin = 1 then mapSet claims "admin" (JVal.bool true)
  else mapSet claims "admin" (JVal.bool false)

/-- The claim map of the refresh token (auth.go, lines 53 to 55). -/
def refreshTokenClaims (g : Globals) (user : User) (now : Int) : MapClaims :=
  let refreshTokenClaims : MapClaims := []
  let refreshTokenClaims := mapSet refreshTokenClaims "sub" (JVal.str (fmtSprint user.ID))
  mapSet refreshTokenClaims "exp" (JVal.num (unixSeconds (now + g.RefreshTokenExpiry)))

/-- The function `generateTokenPair`; `now1` and `now2` are the readings of its
two `time.Now()` calls. -/
def generateTokenPair (P : Prim) (g : Globals) (app : Application) (user : User)
    (now1 now2 : Int) : Except String TokenPairs :=
  match SignedString P SigningMethodHS256 (accessTokenClaims g app user now1)
      (stringBytes app.JWTSecret) with
  | Except.error err => Except.error err
  | Except.ok signedAccessToken =>
    match SignedString P SigningMethodHS256 (refreshTokenClaims g user now2)
        (stringBytes app.JWTSecret) with
    | Except.error err => Except.error err
    | Except.ok signedRefreshToken =>
      Except.ok { AccessToken := signedAccessToken, RefreshToken := signedRefreshToken }

/-- The key function `getTokenFromHeaderAndVerify` hands to the parser. -/
def verifyKeyFunc (app : Application) (token : Token) : Except String (List Byte) :=
  match token.Method with
  | SigningMethod.HMAC _ => Except.ok (stringBytes app.JWTSecret)
  | SigningMethod.other alg => Except.error ("Unexpected signing method: " ++ alg)

/-- The key function of the two refresh handlers. -/
def refreshKeyFunc (app : Application) (_token : Token) : Except String (List Byte) :=
  Except.ok (stringBytes app.JWTSecret)

/-- The function `getTokenFromHeaderAndVerify`: the response writer after the
call, and the error or the token string and claims; `now` is the clock reading
of the parser. -/
def getTokenFromHeaderAndVerify (P : Prim) (app : Application) (resp : ResponseWriter)
    (req : Request) (now : Int) : ResponseWriter × Except String (String × Claims) :=
  let resp := { resp with Header := resp.Header.Add "Vary" "Authorization" }
  let authHeader := req.Header.Get "Authorization"
  if authHeader = "" then (resp, Except.error "Missing Authorization header")
  else
    match stringsSplit authHeader ' ' with
    | [scheme, token] =>
      if scheme ≠ "Bearer" then (resp, Except.error "Unauthorized: no Bearer")
      else
        match ParseWithClaims P token (verifyKeyFunc app) now with
        | Except.error err =>
          if stringsHasPrefix err "token is expired by" then
            (resp, Except.error "Token is expired")
          else (resp, Except.error err)
        | Except.ok claims =>
          if claims.Issuer ≠ app.Domain then (resp, Except.error "Incorrect issuer")
          else (resp, Except.ok (token, claims))
    | _ => (resp, Except.error "Invalid Authorization header")

/-- The middleware `authRequired`. -/
def authRequired (P : Prim) (app : Application) (now : Int) (next : Handler) : Handler :=
  fun resp req =>
    match getTokenFromHeaderAndVerify P app resp req now with
    | (resp, Except.error _) => resp.WriteHeader StatusUnauthorized
    | (resp, Except.ok _) => next resp req

/-- The middleware `enableCORS`. -/
def enableCORS (next : Handler) : Handler :=
  fun resp req =>
    let resp := { resp with
      Header := resp.Header.Set "Access-Control-Allow-Origin" "http://localhost:8090" }
    if req.Method = "OPTIONS" then
      let resp := { resp with
        Header := resp.Header.Set "Access-Control-Allow-Credentials" "true" }
      let resp := { resp with
        Header := resp.Header.Set "Access-Control-Allow-Methods"
          "GET,POST,PUT,PATCH,DELETE,OPTIONS" }
      { resp with
        Header := resp.Header.Set "Access-Control-Allow-Headers"
          "Accept, Content-Type, X-CSRF-Token, Authorization" }
    else next resp req

/-- How a handler call ends: it returns, or it dereferences a nil pointer. -/
inductive Served where
  | returned (resp : ResponseWriter)
  | panicked
  deriving DecidableEq, Repr

/-- The handler `refresh`; `now i` is the reading of the i-th `time.Now()` of
the call: the parser, the renewal window, the two of `generateTokenPair`, the
cookie. -/
def refresh (P : Prim) (g : Globals) (app : Application) (now : Nat → Int)
    (resp : ResponseWriter) (req : Request) : Served :=
  match req.Form with
  | Except.error _ => Served.returned (resp.WriteHeader StatusBadRequest)
  | Except.ok form =>
    let refreshToken := form.Get "refresh_token"
    match ParseWithClaims P refreshToken (refreshKeyFunc app) (now 0) with
    | Except.error err => Served.returned (errorJSON resp err StatusBadRequest)
    | Except.ok claims =>
      match claims.ExpiresAt with
      | none => Served.panicked
      | some exp =>
        if timeSub (timeUnix exp) (now 1) > 30 * Second then
          Served.returned (errorJSON resp "refresh token does not to be renewed yet"
            StatusTooEarly)
        else
          match strconvAtoi claims.Subject with
          | Except.error err => Served.returned (errorJSON resp err StatusBadRequest)
          | Except.ok userID =>
            match app.DB.GetUser userID with
            | Except.error _ =>
              Served.returned (errorJSON resp "Unknown user" StatusBadRequest)
            | Except.ok user =>
              match generateTokenPair P g app user (now 2) (now 3) with
              | Except.error err => Served.returned (errorJSON resp err StatusBadRequest)
              | Except.ok tokenPair =>
                let resp := SetCookie resp
                  { Name := refreshCookieName
                    Value := tokenPair.RefreshToken
                    Path := "/"
                    Domain := "localhost"
                    Expires := now 4 + g.RefreshTokenExpiry
                    MaxAge := g.RefreshTokenExpiry
                    Secure := true
                    HttpOnly := true
                    SameSite := SameSite.SameSiteStrictMode }
                Served.returned (writeJSON resp StatusOK (Payload.tokenPairs tokenPair))

/-- The handler `refreshUsingCookie`; `now i` is the reading of the i-th
`time.Now()` of the call: the parser, the two of `generateTokenPair`, the
cookie. -/
def refreshUsingCookie (P : Prim) (g : Globals) (app : Application) (now : Nat → Int)
    (resp : ResponseWriter) (req : Request) : ResponseWriter :=
  match req.Cookies.find? (fun cookie => cookie.Name == refreshCookieName) with
  | none => errorJSON resp "Unauthorized" StatusUnauthorized
  | some cookie =>
    let refreshToken := cookie.Value
    match ParseWithClaims P refreshToken (refreshKeyFunc app) (now 0) with
    | Except.error err => errorJSON resp err StatusBadRequest
    | Except.ok claims =>
      match strconvAtoi claims.Subject with
      | Except.error err => errorJSON resp err StatusBadRequest
      | Except.ok userID =>
        match app.DB.GetUser userID with
        | Except.error _ => errorJSON resp "Unknown user" StatusBadRequest
        | Except.ok user =>
          match generateTokenPair P g app user (now 1) (now 2) with
          | Except.error err => errorJSON resp err StatusBadRequest
          | Except.ok tokenPair =>
            let resp := SetCookie resp
              { Name := refreshCookieName
                Value := tokenPair.RefreshToken
                Path := "/"
                Domain := "localhost"
                Expires := now 3 + g.RefreshTokenExpiry
                MaxAge := g.RefreshTokenExpiry
                Secure := true
                HttpOnly := true
                SameSite := SameSite.SameSiteStrictMode }
            writeJSON resp StatusOK (Payload.tokenPairs tokenPair)

/-- The handler `deleteRefreshCookie`. -/
def deleteRefreshCookie (resp : ResponseWriter) (_req : Request) : ResponseWriter :=
  let resp := SetCookie resp
    { Name := refreshCookieName
      Value := ""
      Path := "/"
      Domain := "localhost"
      Expires := timeUnix 0
      MaxAge := -1
      Secure := true
      HttpOnly := true
      SameSite := SameSite.SameSiteStrictMode }
  resp.WriteHeader StatusAccepted

/-- The `Credentials` struct of handlers.go. -/
structure Credentials where
  Username : String
  Password : String
  deriving DecidableEq, Repr

/-- The handler `authenticate`.  Modelled from the spec: `readJSON` stands for
`app.readJSON`, defined outside the sources, as what it decodes from the
request body or its error.  `CompareHashAndPassword` is the function of the
bcrypt package.  `now i` is the reading of the i-th `time.Now()` of the call:
the two of `generateTokenPair`, the cookie. -/
def authenticate (P : Prim) (g : Globals) (app : Application)
    (readJSON : Request → Except String Credentials)
    (CompareHashAndPassword : List Byte → List Byte → Except String Unit)
    (now : Nat → Int) (resp : ResponseWriter) (req : Request) : ResponseWriter :=
  match readJSON req with
  | Except.error _ => errorJSON resp "Unauthorized" StatusUnauthorized
  | Except.ok creds =>
    match app.DB.GetUserByEmail creds.Username with
    | Except.error _ => errorJSON resp "Unauthorized" StatusUnauthorized
    | Except.ok user =>
      match CompareHashAndPassword (stringBytes user.Password)
          (stringBytes creds.Password) with
      | Except.error _ => errorJSON resp "Unauthorized" StatusUnauthorized
      | Except.ok _ =>
        match generateTokenPair P g app user (now 0) (now 1) with
        | Except.error _ => errorJSON resp "Unauthorized" StatusUnauthorized
        | Except.ok tokenPair =>
          let resp := SetCookie resp
            { Name := refreshCookieName
              Value := tokenPair.RefreshToken
              Path := "/"
              Domain := "localhost"
              Expires := now 2 + g.RefreshTokenExpiry
              MaxAge := g.RefreshTokenExpiry
              Secure := true
              HttpOnly := true
              SameSite := SameSite.SameSiteStrictMode }
          writeJSON resp StatusOK (Payload.tokenPairs tokenPair)

/-! ## A lawful instance of the primitives

The laws `Prim.Lawful` are satisfiable: `refPrim` is a small instance, with the
identity for the hash functions, one character for each byte of a segment and
a fixed-width code for JSON text.  It is the instance the theorems are applied
to on concrete inputs. -/

/-- One character for a byte: the code point 256 above it. -/
def refEncodeByte (b : Byte) : Char := Char.ofNat (b.val + 256)

/-- The byte a character stands for. -/
def refDecodeChar (c : Char) : Except String Byte :=
  if h : 256 ≤ c.toNat ∧ c.toNat < 512 then Except.ok ⟨c.toNat - 256, by omega⟩
  else Except.error "illegal base64 data"

/-- The bytes a segment stands for. -/
def refDecodeChars : List Char → Except String (List Byte)
  | [] => Except.ok []
  | c :: cs =>
    match refDecodeChar c with
    | Except.error e => Except.error e
    | Except.ok b =>
      match refDecodeChars cs with
      | Except.error e => Except.error e
      | Except.ok bs => Except.ok (b :: bs)

/-- A character as a marker byte and the three bytes of its code point. -/
def refCharBytes (c : Char) : List Byte :=
  [1, Fin.ofNat (c.toNat / 65536), Fin.ofNat (c.toNat / 256 % 256), Fin.ofNat (c.toNat % 256)]

/-- A text field: its characters, then a zero byte. -/
def refFieldBytes (cs : List Char) : List Byte :=
  cs.flatMap refCharBytes ++ [0]

/-- Reads a text field off the front of the bytes. -/
def refParseField : List Byte → Option (List Char × List Byte)
  | [] => none
  | b :: rest =>
    if b.val = 0 then some ([], rest)
    else
      match rest with
      | b0 :: b1 :: b2 :: rest2 =>
        match refParseField rest2 with
        | some (cs, r) => some (Char.ofNat (b0.val * 65536 + b1.val * 256 + b2.val) :: cs, r)
        | none => none
      | _ => none

/-- An optional text field: a zero byte, or a marker byte and the field. -/
def refOptBytes : Option (List Char) → List Byte
  | none => [0]
  | some cs => 1 :: refFieldBytes cs

/-- Reads an optional text field off the front of the bytes. -/
def refParseOpt : List Byte → Option (Option (List Char) × List Byte)
  | [] => none
  | b :: rest =>
    if b.val = 0 then some (none, rest)
    else
      match refParseField rest with
      | some (cs, r) => some (some cs, r)
      | none => none

/-- A claim map as the fields `iss`, `sub`, `aud` and `exp`. -/
def refMarshalClaims (m : MapClaims) : List Byte :=
  refFieldBytes (mapStr m "iss").data ++ (refFieldBytes (mapStr m "sub").data
    ++ (refOptBytes (match mapGet m "aud" with
        | some (JVal.str s) => some s.data
        | _ => none)
      ++ refOptBytes ((mapNum m "exp").map (fun e => (fmtSprint e).data))))

/-- The `Claims` struct read back from the four fields. -/
def refDecodeClaims (b : List Byte) : Except String Claims :=
  match refParseField b with
  | none => Except.error "unexpected end of JSON input"
  | some (iss, r1) =>
    match refParseField r1 with
    | none => Except.error "unexpected end of JSON input"
    | some (sub, r2) =>
      match refParseOpt r2 with
      | none => Except.error "unexpected end of JSON input"
      | some (aud, r3) =>
        match refParseOpt r3 with
        | some (none, []) =>
          Except.ok
            { Issuer := String.mk iss, Subject := String.mk sub
              Audience := (aud.map String.mk).toList
              ExpiresAt := none, NotBefore := none, IssuedAt := none, ID := ""
              Username := "" }
        | some (some e, []) =>
          match parseDecimal e with
          | none => Except.error "invalid number"
          | some v =>
            Except.ok
              { Issuer := String.mk iss, Subject := String.mk sub
                Audience := (aud.map String.mk).toList
                ExpiresAt := some v, NotBefore := none, IssuedAt := none, ID := ""
                Username := "" }
        | _ => Except.error "unexpected end of JSON input"

/-- The `alg` read back from a header, which is one field. -/
def refUnmarshalHeader (b : List Byte) : Except String (Option String) :=
  match refParseField b with
  | some (cs, []) => Except.ok (some (String.mk cs))
  | _ => Except.error "unexpected end of JSON input"

/-- The reference instance of the primitives. -/
def refPrim : Prim where
  hash := fun _ b => b
  encodeSegment := fun b => String.mk (b.map refEncodeByte)
  decodeSegment := fun s => refDecodeChars s.data
  marshalHeader := fun alg => refFieldBytes alg.data
  unmarshalHeader := refUnmarshalHeader
  marshalClaims := refMarshalClaims
  decodeClaims := refDecodeClaims

/-! ## Names for the statements -/

/-- The text an HMAC signature covers: the encoded header, a dot, the encoded claims. -/
def signingInput (P : Prim) (h : HashAlg) (m : MapClaims) : String :=
  P.encodeSegment (P.marshalHeader (SigningMethod.HMAC h).Alg) ++ "."
    ++ P.encodeSegment (P.marshalClaims m)

/-- The compact token `SignedString` produces for an HMAC method. -/
def signedToken (P : Prim) (h : HashAlg) (m : MapClaims) (key : List Byte) : String :=
  signingInput P h m ++ "."
    ++ P.encodeSegment (hmac P h key (stringBytes (signingInput P h m)))

deriving instance DecidableEq for Except

/-- The user of the repository's tests. -/
def testUser : User :=
  { ID := 1, FirstName := "Admin", LastName := "User", Email := "admin@example.com",
    Password := "", IsAdmin := 1 }

/-- A repository that holds `testUser` alone. -/
def testDB : DatabaseRepo :=
  { GetUser := fun id =>
      if id = 1 then Except.ok testUser else Except.error "sql: no rows in result set"
    GetUserByEmail := fun email =>
      if email = "admin@example.com" then Except.ok testUser
      else Except.error "sql: no rows in result set" }

/-- The application of setup_test.go. -/
def testApp : Application :=
  { Datasource := "", DB := testDB, Domain := "example.com", JWTSecret := "super-secret" }

/-- A GET request whose only header is `Authorization: v`. -/
def bearerRequest (v : String) : Request :=
  { Method := "GET", Header := [("Authorization", [v])], Cookies := [], Form := Except.ok [] }

/-- What `getTokenFromHeaderAndVerify` returns once the parser has answered. -/
def verdict (app : Application) (tok : String) (r : Except String Claims) :
    Except String (String × Claims) :=
  match r with
  | Except.error err => Except.error err
  | Except.ok claims =>
    if claims.Issuer ≠ app.Domain then Except.error "Incorrect issuer"
    else Except.ok (tok, claims)

/-- The response writer after `getTokenFromHeaderAndVerify`: the `Vary` header is added. -/
def withVary (resp : ResponseWriter) : ResponseWriter :=
  { resp with Header := resp.Header.Add "Vary" "Authorization" }

/-- The access token `generateTokenPair` issues for the test user of `testApp`
at clock reading `t`. -/
def testAccessToken (t : Int) : String :=
  signedToken refPrim HashAlg.SHA256 (accessTokenClaims defaultGlobals testApp testUser t)
    (stringBytes testApp.JWTSecret)

/-- The refresh token `generateTokenPair` issues for the test user of `testApp`
at clock reading `t`. -/
def testRefreshToken (t : Int) : String :=
  signedToken refPrim HashAlg.SHA256 (refreshTokenClaims defaultGlobals testUser t)
    (stringBytes testApp.JWTSecret)

/-- Splitting at every whitespace character, the way the spec words the header
rule; the code splits at the space character alone (`stringsSplit`). -/
def splitOnWhitespace (s : String) : List String :=
  let rec go : List Char → List (List Char)
    | [] => [[]]
    | c :: cs =>
      if c.isWhitespace then [] :: go cs
      else
        match go cs with
        | [] => [[c]]
        | p :: ps => (c :: p) :: ps
  (go s.data).map String.mk

/-- The claims segment of a compact token: the second of its three parts
between dots. -/
def claimsSegment (tokenString : String) : Option String :=
  match stringsSplit tokenString '.' with
  | [_, p1, _] => some p1
  | _ => none

/-- The `alg` the header segment of a compact token asserts. -/
def tokenAlg (P : Prim) (tokenString : String) : Option String :=
  match stringsSplit tokenString '.' with
  | [p0, _, _] =>
    match P.decodeSegment p0 with
    | Except.error _ => none
    | Except.ok headerBytes =>
      match P.unmarshalHeader headerBytes with
      | Except.error _ => none
      | Except.ok alg => alg
  | _ => none

/-- The application `testApp` with another signing secret. -/
def appWithSecret (secret : String) : Application :=
  { testApp with JWTSecret := secret }

/-- A POST request whose form carries `refresh_token = tok`. -/
def refreshRequest (tok : String) : Request :=
  { Method := "POST", Header := [], Cookies := [],
    Form := Except.ok [("refresh_token", [tok])] }

/-- A cookie as `req.Cookies()` returns it: a name and a value. -/
def requestCookie (name value : String) : Cookie :=
  { Name := name, Value := value, Path := "", Domain := "", Expires := 0, MaxAge := 0,
    Secure := false, HttpOnly := false, SameSite := SameSite.SameSiteDefaultMode }

/-- A GET request that carries the given cookies and nothing else. -/
def cookieRequest (cookies : List Cookie) : Request :=
  { Method := "GET", Header := [], Cookies := cookies, Form := Except.ok [] }

/-- The refresh cookie the three handlers build around a refresh token, with
`Expires` at `now` plus `RefreshTokenExpiry` and `MaxAge` the integer value of
`RefreshTokenExpiry`. -/
def issuedCookie (g : Globals) (value : String) (now : Int) : Cookie :=
  { Name := refreshCookieName
    Value := value
    Path := "/"
    Domain := "localhost"
    Expires := now + g.RefreshTokenExpiry
    MaxAge := g.RefreshTokenExpiry
    Secure := true
    HttpOnly := true
    SameSite := SameSite.SameSiteStrictMode }

/-- The `goodCookie` of Test_app_refreshUsingCookie, built at clock reading
`now` around a refresh token: its `MaxAge` is `int(RefreshTokenExpiry.Seconds())`. -/
def goodCookie (g : Globals) (value : String) (now : Int) : Cookie :=
  { Name := refreshCookieName
    Path := "/"
    Value := value
    Expires := now + g.RefreshTokenExpiry
    MaxAge := g.RefreshTokenExpiry / Second
    SameSite := SameSite.SameSiteStrictMode
    Domain := "localhost"
    HttpOnly := true
    Secure := true }

/-- The request body of the `valid user` row of Test_app_authenticate, decoded. -/
def testReadJSON (_req : Request) : Except String Credentials :=
  Except.ok { Username := "admin@example.com", Password := "secret" }

/-- A password check that accepts every pair. -/
def acceptPassword (_hash _password : List Byte) : Except String Unit :=
  Except.ok ()

/-- The bounds of Go's `int` on a 64-bit platform. -/
def isInt64 (i : Int) : Bool :=
  decide (-9223372036854775808 ≤ i ∧ i ≤ 9223372036854775807)

/-- The response of a refresh that succeeds for `user`: the refresh cookie is
set to the new refresh token and the new pair is written with status 200;
`n1` and `n2` are the clock readings of `generateTokenPair`, `n3` the one of
the cookie. -/
def refreshed (P : Prim) (g : Globals) (app : Application) (n1 n2 n3 : Int)
    (resp : ResponseWriter) (user : User) : ResponseWriter :=
  writeJSON
    (SetCookie resp
      (issuedCookie g
        (signedToken P HashAlg.SHA256 (refreshTokenClaims g user n2)
          (stringBytes app.JWTSecret)) n3))
    StatusOK
    (Payload.tokenPairs
      { AccessToken := signedToken P HashAlg.SHA256 (accessTokenClaims g app user n1)
          (stringBytes app.JWTSecret)
        RefreshToken := signedToken P HashAlg.SHA256 (refreshTokenClaims g user n2)
          (stringBytes app.JWTSecret) })

/-- A user the repository `testDB` does not hold. -/
def strangerUser : User :=
  { testUser with ID := 5 }

/-- The refresh token `generateTokenPair` issues for `strangerUser` under the
secret of `testApp` at the epoch. -/
def strangerRefreshToken : String :=
  signedToken refPrim HashAlg.SHA256 (refreshTokenClaims defaultGlobals strangerUser 0)
    (stringBytes testApp.JWTSecret)

/-! ## Lemmas on the Go runtime -/

theorem splitChars_no_sep (sep : Char) (a : List Char) (h : sep ∉ a) :
    splitChars sep a = [a] := by
  induction a with
  | nil => rfl
  | cons c cs ih =>
    have hc : c ≠ sep := fun e => h (by simp [e])
    have hcs : sep ∉ cs := fun e => h (by simp [e])
    simp [splitChars, hc, ih hcs]

theorem splitChars_append_sep (sep : Char) (a rest : List Char) (h : sep ∉ a) :
    splitChars sep (a ++ sep :: rest) = a :: splitChars sep rest := by
  induction a with
  | nil => simp [splitChars]
  | cons c cs ih =>
    have hc : c ≠ sep := fun e => h (by simp [e])
    have hcs : sep ∉ cs := fun e => h (by simp [e])
    simp [splitChars, hc, ih hcs]

theorem digitChar_toNat (d : Nat) (h : d < 10) : (digitChar d).toNat = 48 + d := by
  interval_cases d <;> rfl

theorem digitsValue_append (l : List Char) (acc d : Nat) (h : d < 10) :
    digitsValue acc (l ++ [digitChar d]) = (digitsValue acc l).map (fun v => v * 10 + d) := by
  induction l generalizing acc with
  | nil =>
    simp only [List.nil_append, digitsValue, digitChar_toNat d h, Option.map]
    rw [if_pos (by omega)]
    congr 1
    omega
  | cons c cs ih =>
    simp only [List.cons_append, digitsValue]
    split
    · exact ih _
    · rfl

theorem digitsValue_natDigits (fuel n : Nat) (h : n < fuel) :
    digitsValue 0 (natDigits fuel n) = some n := by
  induction fuel generalizing n with
  | zero => omega
  | succ f ih =>
    unfold natDigits
    split
    · rename_i h10
      simp only [digitsValue, digitChar_toNat n h10]
      rw [if_pos (by omega)]
      congr 1
      omega
    · rw [digitsValue_append _ _ _ (Nat.mod_lt _ (by decide)), ih (n / 10) (by omega)]
      simp only [Option.map]
      congr 1
      omega

theorem natDigits_head (fuel n : Nat) (h : n < fuel) :
    ∃ d cs, d < 10 ∧ natDigits fuel n = digitChar d :: cs := by
  induction fuel generalizing n with
  | zero => omega
  | succ f ih =>
    unfold natDigits
    split
    · rename_i h10
      exact ⟨n, [], h10, rfl⟩
    · obtain ⟨d, cs, hd, e⟩ := ih (n / 10) (by omega)
      exact ⟨d, cs ++ [digitChar (n % 10)], hd, by rw [e]; rfl⟩

theorem digitChar_ne_sign (d : Nat) (h : d < 10) : digitChar d ≠ '-' ∧ digitChar d ≠ '+' := by
  interval_cases d <;> decide

/-- Parsing the decimal text of an integer gives the integer back. -/
theorem parseDecimal_fmtSprint (i : Int) : parseDecimal (fmtSprint i).data = some i := by
  cases i with
  | ofNat n =>
    obtain ⟨d, cs, hd, e⟩ := natDigits_head (n + 1) n (by omega)
    have hv := digitsValue_natDigits (n + 1) n (by omega)
    simp only [fmtSprint]
    rw [e] at hv ⊢
    simp only [parseDecimal, (digitChar_ne_sign d hd).1, (digitChar_ne_sign d hd).2, if_false, hv]
    rfl
  | negSucc n =>
    obtain ⟨d, cs, hd, e⟩ := natDigits_head (n + 2) (n + 1) (by omega)
    have hv := digitsValue_natDigits (n + 2) (n + 1) (by omega)
    simp only [fmtSprint, parseDecimal, if_true]
    rw [e] at hv ⊢
    simp only [hv, Option.map]
    rw [if_neg (by simp)]
    rfl

/-! ## Lemmas on the reference instance -/

set_option maxRecDepth 100000 in
theorem refEncodeByte_toNat (b : Byte) : (refEncodeByte b).toNat = b.val + 256 := by
  revert b
  decide

theorem refDecodeChar_encode (b : Byte) : refDecodeChar (refEncodeByte b) = Except.ok b := by
  have h := refEncodeByte_toNat b
  have hb := b.isLt
  have hc : 256 ≤ (refEncodeByte b).toNat ∧ (refEncodeByte b).toNat < 512 := by omega
  unfold refDecodeChar
  rw [dif_pos hc]
  have hv : (refEncodeByte b).toNat - 256 = b.val := by omega
  exact congrArg Except.ok (Fin.ext hv)

theorem refEncodeByte_alphabet (b : Byte) : refEncodeByte b ≠ ' ' ∧ refEncodeByte b ≠ '.' := by
  have h := refEncodeByte_toNat b
  have h1 : (' ' : Char).toNat = 32 := rfl
  have h2 : ('.' : Char).toNat = 46 := rfl
  constructor <;> intro e <;> rw [e] at h <;> omega

theorem refDecodeChars_encode (b : List Byte) :
    refDecodeChars (b.map refEncodeByte) = Except.ok b := by
  induction b with
  | nil => rfl
  | cons x xs ih => simp [refDecodeChars, refDecodeChar_encode, ih]

theorem char_toNat_lt (c : Char) : c.toNat < 1114112 := by
  have h : c.val.toNat < 0xd800 ∨ (0xdfff < c.val.toNat ∧ c.val.toNat < 0x110000) := c.valid
  show c.val.toNat < 1114112
  omega

theorem refCharBytes_value (c : Char) :
    Char.ofNat ((Fin.ofNat (c.toNat / 65536) : Byte).val * 65536
      + (Fin.ofNat (c.toNat / 256 % 256) : Byte).val * 256
      + (Fin.ofNat (c.toNat % 256) : Byte).val) = c := by
  have h := char_toNat_lt c
  have e : (Fin.ofNat (c.toNat / 65536) : Byte).val * 65536
      + (Fin.ofNat (c.toNat / 256 % 256) : Byte).val * 256
      + (Fin.ofNat (c.toNat % 256) : Byte).val = c.toNat := by
    show c.toNat / 65536 % 256 * 65536 + c.toNat / 256 % 256 % 256 * 256
      + c.toNat % 256 % 256 = c.toNat
    omega
  rw [e, Char.ofNat_toNat]

theorem refParseField_fieldBytes (cs : List Char) (rest : List Byte) :
    refParseField (refFieldBytes cs ++ rest) = some (cs, rest) := by
  have h10 : ¬ ((1 : Byte).val = 0) := by decide
  induction cs with
  | nil =>
    show refParseField (0 :: rest) = some ([], rest)
    unfold refParseField
    rfl
  | cons c cs ih =>
    have e : refFieldBytes (c :: cs) ++ rest
        = 1 :: Fin.ofNat (c.toNat / 65536) :: Fin.ofNat (c.toNat / 256 % 256)
          :: Fin.ofNat (c.toNat % 256) :: (refFieldBytes cs ++ rest) := by
      simp [refFieldBytes, refCharBytes]
    rw [e]
    unfold refParseField
    simp only [h10, if_false, ih, refCharBytes_value]

theorem refParseOpt_optBytes (o : Option (List Char)) (rest : List Byte) :
    refParseOpt (refOptBytes o ++ rest) = some (o, rest) := by
  have h10 : ¬ ((1 : Byte).val = 0) := by decide
  cases o with
  | none =>
    show refParseOpt (0 :: rest) = some (none, rest)
    unfold refParseOpt
    rfl
  | some cs =>
    have e : refOptBytes (some cs) ++ rest = 1 :: (refFieldBytes cs ++ rest) := by
      simp [refOptBytes]
    rw [e]
    unfold refParseOpt
    simp only [h10, if_false, refParseField_fieldBytes]

theorem refDecodeClaims_marshal (m : MapClaims) :
    refDecodeClaims (refMarshalClaims m) = Except.ok (claimsOfMap m) := by
  unfold refDecodeClaims refMarshalClaims
  rw [refParseField_fieldBytes]
  simp only
  rw [refParseField_fieldBytes]
  simp only
  rw [refParseOpt_optBytes]
  simp only
  have h := refParseOpt_optBytes ((mapNum m "exp").map (fun e => (fmtSprint e).data)) []
  rw [List.append_nil] at h
  rw [h]
  unfold claimsOfMap
  cases hexp : mapNum m "exp" with
  | none =>
    simp only [Option.map]
    cases mapGet m "aud" with
    | none => rfl
    | some v => cases v <;> rfl
  | some e =>
    simp only [Option.map, parseDecimal_fmtSprint]
    cases mapGet m "aud" with
    | none => rfl
    | some v => cases v <;> rfl

theorem refUnmarshalHeader_marshal (alg : String) :
    refUnmarshalHeader (refFieldBytes alg.data) = Except.ok (some alg) := by
  have h := refParseField_fieldBytes alg.data []
  rw [List.append_nil] at h
  unfold refUnmarshalHeader
  rw [h]

/-- The reference instance satisfies the laws. -/
theorem refPrim_lawful : refPrim.Lawful where
  decode_encode := fun b => refDecodeChars_encode b
  encode_alphabet := fun b c h => by
    obtain ⟨x, _, rfl⟩ := List.mem_map.mp h
    exact refEncodeByte_alphabet x
  header_roundtrip := refUnmarshalHeader_marshal
  claims_roundtrip := fun m _ => refDecodeClaims_marshal m

/-! ## Lemmas on the JWT library -/

theorem SignedString_HMAC (P : Prim) (h : HashAlg) (m : MapClaims) (key : List Byte) :
    SignedString P (SigningMethod.HMAC h) m key = Except.ok (signedToken P h m key) := rfl

theorem GetSigningMethod_Alg (h : HashAlg) :
    GetSigningMethod (SigningMethod.HMAC h).Alg = some (SigningMethod.HMAC h) := by
  cases h <;> decide

theorem segment_no_dot (P : Prim) (hP : P.Lawful) (b : List Byte) : '.' ∉ (P.encodeSegment b).data :=
  fun h => (hP.encode_alphabet b '.' h).2 rfl

theorem segment_no_space (P : Prim) (hP : P.Lawful) (b : List Byte) : ' ' ∉ (P.encodeSegment b).data :=
  fun h => (hP.encode_alphabet b ' ' h).1 rfl

theorem signedToken_data (P : Prim) (h : HashAlg) (m : MapClaims) (key : List Byte) :
    (signedToken P h m key).data
      = (P.encodeSegment (P.marshalHeader (SigningMethod.HMAC h).Alg)).data
        ++ '.' :: ((P.encodeSegment (P.marshalClaims m)).data
        ++ '.' :: (P.encodeSegment (hmac P h key (stringBytes (signingInput P h m)))).data) := by
  simp [signedToken, signingInput, String.data_append]

theorem signedToken_no_space (P : Prim) (hP : P.Lawful) (h : HashAlg) (m : MapClaims) (key : List Byte) :
    ' ' ∉ (signedToken P h m key).data := by
  rw [signedToken_data]
  have h1 := segment_no_space P hP (P.marshalHeader (SigningMethod.HMAC h).Alg)
  have h2 := segment_no_space P hP (P.marshalClaims m)
  have h3 := segment_no_space P hP (hmac P h key (stringBytes (signingInput P h m)))
  have hd : ¬ (' ' = '.') := by decide
  simp [h1, h2, h3, hd]

theorem stringsSplit_segments (P : Prim) (hP : P.Lawful) (a b c : List Byte) :
    stringsSplit (P.encodeSegment a ++ "." ++ P.encodeSegment b ++ "." ++ P.encodeSegment c) '.'
      = [P.encodeSegment a, P.encodeSegment b, P.encodeSegment c] := by
  have e : (P.encodeSegment a ++ "." ++ P.encodeSegment b ++ "." ++ P.encodeSegment c).data
      = (P.encodeSegment a).data ++ '.' :: ((P.encodeSegment b).data
        ++ '.' :: (P.encodeSegment c).data) := by
    simp [String.data_append]
  unfold stringsSplit
  rw [e, splitChars_append_sep _ _ _ (segment_no_dot P hP a),
    splitChars_append_sep _ _ _ (segment_no_dot P hP b),
    splitChars_no_sep _ _ (segment_no_dot P hP c)]
  rfl

theorem ParseUnverified_signed (P : Prim) (hP : P.Lawful) (h : HashAlg) (m : MapClaims) (sig : List Byte)
    (hm : wellTyped m = true) :
    ParseUnverified P (signingInput P h m ++ "." ++ P.encodeSegment sig)
      = Except.ok
          { Method := SigningMethod.HMAC h
            Claims := claimsOfMap m
            signingString := signingInput P h m
            signatureSegment := P.encodeSegment sig } := by
  unfold ParseUnverified signingInput
  rw [stringsSplit_segments P hP]
  simp only [hP.decode_encode, hP.header_roundtrip, hP.claims_roundtrip m hm,
    GetSigningMethod_Alg]

/-- Parsing a token signed under `key` with a key function that yields `key2`:
the two HMAC tags are compared, then the claims are validated. -/
theorem ParseWithClaims_signed (P : Prim) (hP : P.Lawful) (h : HashAlg) (m : MapClaims)
    (key key2 : List Byte) (kf : Token → Except String (List Byte)) (now : Int)
    (hm : wellTyped m = true)
    (hkf : ∀ t : Token, t.Method = SigningMethod.HMAC h → kf t = Except.ok key2) :
    ParseWithClaims P (signedToken P h m key) kf now
      = if hmac P h key (stringBytes (signingInput P h m))
            = hmac P h key2 (stringBytes (signingInput P h m)) then
          validateClaims (claimsOfMap m) now
        else Except.error "token signature is invalid: signature is invalid" := by
  have hk := hkf
    { Method := SigningMethod.HMAC h
      Claims := claimsOfMap m
      signingString := signingInput P h m
      signatureSegment := P.encodeSegment (hmac P h key (stringBytes (signingInput P h m))) }
    rfl
  unfold ParseWithClaims signedToken
  rw [ParseUnverified_signed P hP h m _ hm]
  simp only [hk, hP.decode_encode, SigningMethod.Verify]
  by_cases e : hmac P h key (stringBytes (signingInput P h m))
      = hmac P h key2 (stringBytes (signingInput P h m))
  · simp only [e, if_true]
  · simp only [e, if_false]
    rfl

theorem hasPrefix_expiredBy_false (s : String) (h : s.data.take 10 ≠ "token is e".data) :
    stringsHasPrefix s "token is expired by" = false := by
  unfold stringsHasPrefix
  rw [Bool.eq_false_iff]
  intro hp
  rw [List.isPrefixOf_iff_prefix] at hp
  obtain ⟨t, ht⟩ := hp
  apply h
  rw [← ht]
  rfl

theorem take10_append (a e : String) (h : 10 ≤ a.data.length) :
    (a ++ e).data.take 10 = a.data.take 10 := by
  rw [String.data_append, List.take_append_of_le_length h]

theorem ParseUnverified_error_not_expiredBy (P : Prim) (tok : String) (err : String)
    (h : ParseUnverified P tok = Except.error err) :
    stringsHasPrefix err "token is expired by" = false := by
  unfold ParseUnverified at h
  repeat' split at h
  all_goals first
    | (cases h; done)
    | (injection h with h
       subst h
       apply hasPrefix_expiredBy_false
       first
         | (rw [take10_append _ _ (by decide)]; decide)
         | decide)

/-- No error of the parser starts with `token is expired by`: each one starts
with one of the four sentences of the library's errors.go. -/
theorem ParseWithClaims_error_not_expiredBy (P : Prim) (tok : String)
    (kf : Token → Except String (List Byte)) (now : Int) (err : String)
    (h : ParseWithClaims P tok kf now = Except.error err) :
    stringsHasPrefix err "token is expired by" = false := by
  unfold ParseWithClaims validateClaims at h
  split at h
  · injection h with h
    subst h
    exact ParseUnverified_error_not_expiredBy P tok _ (by assumption)
  repeat' split at h
  all_goals first
    | (cases h; done)
    | (injection h with h
       subst h
       apply hasPrefix_expiredBy_false
       rw [take10_append _ _ (by decide)]
       decide)

/-! ## Lemmas on the application -/

theorem accessTokenClaims_eq (g : Globals) (app : Application) (user : User) (now : Int) :
    accessTokenClaims g app user now
      = [("name", JVal.str (user.FirstName ++ " " ++ user.LastName)),
         ("sub", JVal.str (fmtSprint user.ID)),
         ("aud", JVal.str app.Domain),
         ("iss", JVal.str app.Domain),
         ("exp", JVal.num (unixSeconds (now + g.jwtTokenExpiry))),
         ("admin", JVal.bool (decide (user.IsAdmin = 1)))] := by
  unfold accessTokenClaims
  split <;> simp [mapSet, *]

theorem refreshTokenClaims_eq (g : Globals) (user : User) (now : Int) :
    refreshTokenClaims g user now
      = [("sub", JVal.str (fmtSprint user.ID)),
         ("exp", JVal.num (unixSeconds (now + g.RefreshTokenExpiry)))] := by
  simp [refreshTokenClaims, mapSet]

theorem wellTyped_accessTokenClaims (g : Globals) (app : Application) (user : User)
    (now : Int) (hx : exactSeconds (unixSeconds (now + g.jwtTokenExpiry)) = true) :
    wellTyped (accessTokenClaims g app user now) = true := by
  rw [accessTokenClaims_eq]
  simp [wellTyped, hx]

theorem wellTyped_refreshTokenClaims (g : Globals) (user : User)
    (now : Int) (hx : exactSeconds (unixSeconds (now + g.RefreshTokenExpiry)) = true) :
    wellTyped (refreshTokenClaims g user now) = true := by
  rw [refreshTokenClaims_eq]
  simp [wellTyped, hx]

theorem claimsOfMap_accessTokenClaims (g : Globals) (app : Application) (user : User)
    (now : Int) :
    claimsOfMap (accessTokenClaims g app user now)
      = { Issuer := app.Domain, Subject := fmtSprint user.ID, Audience := [app.Domain]
          ExpiresAt := some (unixSeconds (now + g.jwtTokenExpiry))
          NotBefore := none, IssuedAt := none, ID := "", Username := "" } := by
  rw [accessTokenClaims_eq]
  simp [claimsOfMap, mapStr, mapNum, mapGet]

theorem claimsOfMap_refreshTokenClaims (g : Globals) (user : User) (now : Int) :
    claimsOfMap (refreshTokenClaims g user now)
      = { Issuer := "", Subject := fmtSprint user.ID, Audience := []
          ExpiresAt := some (unixSeconds (now + g.RefreshTokenExpiry))
          NotBefore := none, IssuedAt := none, ID := "", Username := "" } := by
  rw [refreshTokenClaims_eq]
  simp [claimsOfMap, mapStr, mapNum, mapGet]

theorem generateTokenPair_eq (P : Prim) (g : Globals) (app : Application) (user : User)
    (now1 now2 : Int) :
    generateTokenPair P g app user now1 now2
      = Except.ok
          { AccessToken := signedToken P HashAlg.SHA256 (accessTokenClaims g app user now1)
              (stringBytes app.JWTSecret)
            RefreshToken := signedToken P HashAlg.SHA256 (refreshTokenClaims g user now2)
              (stringBytes app.JWTSecret) } := rfl

theorem stringsSplit_bearer (tok : String) (hs : ' ' ∉ tok.data) :
    stringsSplit ("Bearer " ++ tok) ' ' = ["Bearer", tok] := by
  have e : ("Bearer " ++ tok).data = "Bearer".data ++ ' ' :: tok.data := by
    rw [String.data_append]
    rfl
  unfold stringsSplit
  rw [e, splitChars_append_sep _ _ _ (by decide), splitChars_no_sep _ _ hs]
  rfl

theorem bearer_ne_empty (tok : String) : "Bearer " ++ tok ≠ "" := by
  intro h
  have e := congrArg String.data h
  rw [String.data_append] at e
  exact absurd e (by simp)

/-- On a header `Bearer tok` whose token has no space the outcome is the
verdict on what the parser says of `tok`. -/
theorem getTokenFromHeaderAndVerify_bearer (P : Prim) (app : Application)
    (resp : ResponseWriter) (req : Request) (now : Int) (tok : String)
    (hh : req.Header.Get "Authorization" = "Bearer " ++ tok) (hs : ' ' ∉ tok.data) :
    getTokenFromHeaderAndVerify P app resp req now
      = (withVary resp, verdict app tok (ParseWithClaims P tok (verifyKeyFunc app) now)) := by
  unfold getTokenFromHeaderAndVerify
  simp only [hh, bearer_ne_empty, if_false, stringsSplit_bearer tok hs]
  cases hp : ParseWithClaims P tok (verifyKeyFunc app) now with
  | error err =>
    simp only [ParseWithClaims_error_not_expiredBy P tok _ now err hp]
    rfl
  | ok claims =>
    simp only [verdict, withVary]
    by_cases hi : claims.Issuer = app.Domain
    · simp [hi]
    · simp [hi]

theorem splitChars_ne_nil (sep : Char) (l : List Char) : splitChars sep l ≠ [] := by
  cases l with
  | nil => simp [splitChars]
  | cons c cs =>
    unfold splitChars
    split
    · simp
    · split <;> simp

theorem splitChars_singleton (sep : Char) (l b : List Char) (h : splitChars sep l = [b]) :
    l = b ∧ sep ∉ b := by
  induction l generalizing b with
  | nil =>
    simp only [splitChars, List.cons.injEq, and_true] at h
    subst h
    simp
  | cons c cs ih =>
    unfold splitChars at h
    split at h
    · simp only [List.cons.injEq] at h
      exact absurd h.2 (splitChars_ne_nil sep cs)
    · rename_i hc
      split at h
      · rename_i hnil
        exact absurd hnil (splitChars_ne_nil sep cs)
      · rename_i p ps hps
        simp only [List.cons.injEq] at h
        obtain ⟨hb, hnil⟩ := h
        subst hnil
        obtain ⟨e1, e2⟩ := ih p hps
        subst hb
        subst e1
        refine ⟨rfl, ?_⟩
        simp only [List.mem_cons, not_or]
        exact ⟨fun e => hc e.symm, e2⟩

theorem splitChars_pair (sep : Char) (l a b : List Char) (h : splitChars sep l = [a, b]) :
    l = a ++ sep :: b ∧ sep ∉ a ∧ sep ∉ b := by
  induction l generalizing a with
  | nil => simp [splitChars] at h
  | cons c cs ih =>
    unfold splitChars at h
    split at h
    · rename_i hc
      simp only [List.cons.injEq] at h
      obtain ⟨ha, hrest⟩ := h
      obtain ⟨e1, e2⟩ := splitChars_singleton sep cs b hrest
      subst ha
      subst e1
      subst hc
      simp [e2]
    · rename_i hc
      split at h
      · simp at h
      · rename_i p ps hps
        simp only [List.cons.injEq] at h
        obtain ⟨ha, hrest⟩ := h
        subst hrest
        obtain ⟨e1, e2, e3⟩ := ih p hps
        subst ha
        subst e1
        refine ⟨rfl, ?_, e3⟩
        simp only [List.mem_cons, not_or]
        exact ⟨fun e => hc e.symm, e2⟩

/-- The parts of a header value are `Bearer` and a token exactly when the value
is `Bearer`, one space and a token without a space. -/
theorem stringsSplit_bearer_iff (auth tok : String) :
    stringsSplit auth ' ' = ["Bearer", tok] ↔ auth = "Bearer " ++ tok ∧ ' ' ∉ tok.data := by
  constructor
  · intro h
    unfold stringsSplit at h
    have hl : (splitChars ' ' auth.data).length = 2 := by
      have := congrArg List.length h
      simpa using this
    match hs : splitChars ' ' auth.data, hl with
    | [a, b], _ =>
      rw [hs] at h
      simp only [List.map_cons, List.map_nil, List.cons.injEq, and_true] at h
      obtain ⟨ha, hb⟩ := h
      obtain ⟨e1, _, e3⟩ := splitChars_pair ' ' auth.data a b hs
      have ha2 : a = "Bearer".data := by rw [← ha]
      have hb2 : b = tok.data := by rw [← hb]
      subst ha2
      subst hb2
      refine ⟨?_, e3⟩
      apply String.ext
      rw [e1, String.data_append]
      rfl
  · rintro ⟨rfl, hs⟩
    exact stringsSplit_bearer tok hs

theorem validateClaims_of_exp (c : Claims) (e : Int) (now : Int)
    (he : c.ExpiresAt = some e) (hn : c.NotBefore = none) :
    validateClaims c now
      = if now < timeUnix e then Except.ok c
        else Except.error "token has invalid claims: token is expired" := by
  unfold validateClaims validationErrors
  rw [he, hn]
  by_cases h : now < timeUnix e
  · simp [h]
  · simp only [h, if_false]
    rfl

theorem getTokenFromHeaderAndVerify_fst (P : Prim) (app : Application)
    (resp : ResponseWriter) (req : Request) (now : Int) :
    (getTokenFromHeaderAndVerify P app resp req now).1 = withVary resp := by
  unfold getTokenFromHeaderAndVerify
  simp only
  repeat' split
  all_goals rfl

theorem verifyKeyFunc_HMAC (app : Application) (h : HashAlg) (t : Token)
    (ht : t.Method = SigningMethod.HMAC h) :
    verifyKeyFunc app t = Except.ok (stringBytes app.JWTSecret) := by
  unfold verifyKeyFunc
  rw [ht]

/-- The verdict on a bearer token signed under `key` with an HMAC method. -/
theorem verify_signed (P : Prim) (hP : P.Lawful) (app : Application) (resp : ResponseWriter) (req : Request)
    (now : Int) (h : HashAlg) (m : MapClaims) (key : List Byte) (hm : wellTyped m = true)
    (hh : req.Header.Get "Authorization" = "Bearer " ++ signedToken P h m key) :
    getTokenFromHeaderAndVerify P app resp req now
      = (withVary resp, verdict app (signedToken P h m key)
          (if hmac P h key (stringBytes (signingInput P h m))
              = hmac P h (stringBytes app.JWTSecret) (stringBytes (signingInput P h m)) then
            validateClaims (claimsOfMap m) now
          else Except.error "token signature is invalid: signature is invalid")) := by
  rw [getTokenFromHeaderAndVerify_bearer P app resp req now _ hh (signedToken_no_space P hP h m key),
    ParseWithClaims_signed P hP h m key (stringBytes app.JWTSecret) (verifyKeyFunc app) now hm
      (verifyKeyFunc_HMAC app h)]

/-- Parsing an access token of `generateTokenPair` with a key function that
yields the signing secret. -/
theorem ParseWithClaims_access (P : Prim) (hP : P.Lawful) (g : Globals) (app : Application) (user : User)
    (now1 now : Int) (kf : Token → Except String (List Byte))
    (hx : exactSeconds (unixSeconds (now1 + g.jwtTokenExpiry)) = true)
    (hkf : ∀ t : Token, t.Method = SigningMethod.HMAC HashAlg.SHA256 →
      kf t = Except.ok (stringBytes app.JWTSecret)) :
    ParseWithClaims P (signedToken P HashAlg.SHA256 (accessTokenClaims g app user now1)
        (stringBytes app.JWTSecret)) kf now
      = if now < timeUnix (unixSeconds (now1 + g.jwtTokenExpiry)) then
          Except.ok (claimsOfMap (accessTokenClaims g app user now1))
        else Except.error "token has invalid claims: token is expired" := by
  rw [ParseWithClaims_signed P hP _ _ _ _ kf now (wellTyped_accessTokenClaims g app user now1 hx) hkf,
    if_pos rfl]
  exact validateClaims_of_exp _ _ now (by rw [claimsOfMap_accessTokenClaims])
    (by rw [claimsOfMap_accessTokenClaims])

/-- Parsing a refresh token of `generateTokenPair` with a key function that
yields the signing secret. -/
theorem ParseWithClaims_refresh (P : Prim) (hP : P.Lawful) (g : Globals) (app : Application) (user : User)
    (now2 now : Int) (kf : Token → Except String (List Byte))
    (hx : exactSeconds (unixSeconds (now2 + g.RefreshTokenExpiry)) = true)
    (hkf : ∀ t : Token, t.Method = SigningMethod.HMAC HashAlg.SHA256 →
      kf t = Except.ok (stringBytes app.JWTSecret)) :
    ParseWithClaims P (signedToken P HashAlg.SHA256 (refreshTokenClaims g user now2)
        (stringBytes app.JWTSecret)) kf now
      = if now < timeUnix (unixSeconds (now2 + g.RefreshTokenExpiry)) then
          Except.ok (claimsOfMap (refreshTokenClaims g user now2))
        else Except.error "token has invalid claims: token is expired" := by
  rw [ParseWithClaims_signed P hP _ _ _ _ kf now (wellTyped_refreshTokenClaims g user now2 hx) hkf,
    if_pos rfl]
  exact validateClaims_of_exp _ _ now (by rw [claimsOfMap_refreshTokenClaims])
    (by rw [claimsOfMap_refreshTokenClaims])

/-- A zero byte appended to a key shorter than the block leaves the key block,
and with it every HMAC tag, unchanged. -/
theorem hmacBlockKey_append_zero (P : Prim) (h : HashAlg) (key : List Byte)
    (hl : key.length < h.blockSize) :
    hmacBlockKey P h (key ++ [0]) = hmacBlockKey P h key := by
  unfold hmacBlockKey
  have h1 : ¬ (key ++ [0]).length > h.blockSize := by
    simp only [List.length_append, List.length_singleton]
    omega
  have h2 : ¬ key.length > h.blockSize := by omega
  simp only [h1, h2, if_false]
  rw [List.take_of_length_le (by simp only [List.length_append, List.length_singleton]; omega),
    List.take_of_length_le (by omega)]
  have e : h.blockSize - key.length = (h.blockSize - (key ++ [0]).length) + 1 := by
    simp only [List.length_append, List.length_singleton]
    omega
  rw [e, List.replicate_succ]
  simp

theorem hmac_append_zero (P : Prim) (h : HashAlg) (key msg : List Byte)
    (hl : key.length < h.blockSize) :
    hmac P h (key ++ [0]) msg = hmac P h key msg := by
  unfold hmac
  rw [hmacBlockKey_append_zero P h key hl]

theorem bearerRequest_get (v : String) :
    (bearerRequest v).Header.Get "Authorization" = v := rfl

theorem verify_missing (P : Prim) (app : Application) (resp : ResponseWriter) (req : Request)
    (now : Int) (hh : req.Header.Get "Authorization" = "") :
    getTokenFromHeaderAndVerify P app resp req now
      = (withVary resp, Except.error "Missing Authorization header") := by
  unfold getTokenFromHeaderAndVerify
  simp only [hh, if_true]
  rfl

theorem verify_invalid (P : Prim) (app : Application) (resp : ResponseWriter) (req : Request)
    (now : Int) (hne : req.Header.Get "Authorization" ≠ "")
    (hl : (stringsSplit (req.Header.Get "Authorization") ' ').length ≠ 2) :
    getTokenFromHeaderAndVerify P app resp req now
      = (withVary resp, Except.error "Invalid Authorization header") := by
  unfold getTokenFromHeaderAndVerify
  simp only [hne, if_false]
  split
  · rename_i hsplit
    rw [hsplit] at hl
    exact absurd rfl hl
  · rfl

theorem verify_no_bearer (P : Prim) (app : Application) (resp : ResponseWriter) (req : Request)
    (now : Int) (scheme tok : String) (hne : req.Header.Get "Authorization" ≠ "")
    (hsplit : stringsSplit (req.Header.Get "Authorization") ' ' = [scheme, tok])
    (hs : scheme ≠ "Bearer") :
    getTokenFromHeaderAndVerify P app resp req now
      = (withVary resp, Except.error "Unauthorized: no Bearer") := by
  unfold getTokenFromHeaderAndVerify
  simp only [hne, if_false, hsplit, hs, ne_eq, not_false_eq_true, if_true]
  rfl

theorem verify_shape_ok (P : Prim) (app : Application) (resp : ResponseWriter) (req : Request)
    (now : Int) (tok : String)
    (hsplit : stringsSplit (req.Header.Get "Authorization") ' ' = ["Bearer", tok]) :
    getTokenFromHeaderAndVerify P app resp req now
      = (withVary resp, verdict app tok (ParseWithClaims P tok (verifyKeyFunc app) now)) := by
  obtain ⟨hh, hs⟩ := (stringsSplit_bearer_iff _ tok).mp hsplit
  exact getTokenFromHeaderAndVerify_bearer P app resp req now tok hh hs

theorem authRequired_eq (P : Prim) (app : Application) (now : Int) (next : Handler)
    (resp : ResponseWriter) (req : Request) :
    authRequired P app now next resp req
      = match (getTokenFromHeaderAndVerify P app resp req now).2 with
        | Except.error _ => (withVary resp).WriteHeader StatusUnauthorized
        | Except.ok _ => next (withVary resp) req := by
  have h := getTokenFromHeaderAndVerify_fst P app resp req now
  unfold authRequired
  generalize getTokenFromHeaderAndVerify P app resp req now = r at h
  obtain ⟨r1, r2⟩ := r
  simp only at h
  subst h
  cases r2 <;> rfl

theorem ParseUnverified_alg (P : Prim) (tok : String) (t : Token)
    (hu : ParseUnverified P tok = Except.ok t) :
    ∃ a, tokenAlg P tok = some a ∧ GetSigningMethod a = some t.Method := by
  unfold ParseUnverified at hu
  unfold tokenAlg
  repeat' split at hu
  all_goals first
    | (cases hu; done)
    | (injection hu with hu
       subst hu
       simp_all)

theorem ParseUnverified_signed_inv (P : Prim) (hP : P.Lawful) (h : HashAlg) (m : MapClaims) (sig : List Byte)
    (t : Token)
    (hu : ParseUnverified P (signingInput P h m ++ "." ++ P.encodeSegment sig) = Except.ok t) :
    t.Method = SigningMethod.HMAC h ∧ t.signingString = signingInput P h m
      ∧ t.signatureSegment = P.encodeSegment sig := by
  unfold ParseUnverified signingInput at hu
  rw [stringsSplit_segments P hP] at hu
  simp only [hP.decode_encode, hP.header_roundtrip, GetSigningMethod_Alg] at hu
  split at hu
  · cases hu
  · injection hu with hu
    subst hu
    exact ⟨rfl, rfl, rfl⟩

/-- A header `Bearer tok` is answered with an error whenever every claim set
the parser could return for `tok` has another issuer than the configured one. -/
theorem verify_rejects (P : Prim) (app : Application) (resp : ResponseWriter)
    (req : Request) (now : Int) (tok : String)
    (hh : req.Header.Get "Authorization" = "Bearer " ++ tok)
    (hp : ∀ claims, ParseWithClaims P tok (verifyKeyFunc app) now = Except.ok claims →
      claims.Issuer ≠ app.Domain) :
    ∃ err, (getTokenFromHeaderAndVerify P app resp req now).2 = Except.error err := by
  have hne : req.Header.Get "Authorization" ≠ "" := by
    rw [hh]
    exact bearer_ne_empty tok
  match hsplit : stringsSplit (req.Header.Get "Authorization") ' ' with
  | [scheme, tok2] =>
    by_cases hs : scheme = "Bearer"
    · subst hs
      obtain ⟨e, _⟩ := (stringsSplit_bearer_iff _ tok2).mp hsplit
      have et : tok2 = tok := by
        rw [hh] at e
        have e2 := congrArg String.data e
        rw [String.data_append, String.data_append] at e2
        exact (String.ext (List.append_cancel_left e2)).symm
      subst et
      rw [verify_shape_ok P app resp req now tok2 hsplit]
      cases hpc : ParseWithClaims P tok2 (verifyKeyFunc app) now with
      | error err => exact ⟨err, rfl⟩
      | ok claims => exact ⟨"Incorrect issuer", by simp [verdict, hp claims hpc]⟩
    · rw [verify_no_bearer P app resp req now scheme tok2 hne hsplit hs]
      exact ⟨_, rfl⟩
  | [] | [_] | _ :: _ :: _ :: _ =>
    rw [verify_invalid P app resp req now hne (by rw [hsplit]; simp)]
    exact ⟨_, rfl⟩

theorem validateClaims_expired (c : Claims) (e : Int) (now : Int)
    (he : c.ExpiresAt = some e) (hpast : timeUnix e ≤ now) :
    ∃ err, validateClaims c now = Except.error err
      ∧ stringsHasPrefix err "token has invalid claims: token is expired" = true
      ∧ err ≠ "Token is expired" := by
  have hlt : ¬ now < timeUnix e := not_lt.mpr hpast
  unfold validateClaims validationErrors
  rw [he]
  simp only [hlt, if_false]
  cases c.NotBefore with
  | none =>
    exact ⟨"token has invalid claims: token is expired", rfl, by decide, by decide⟩
  | some n =>
    by_cases hn : now < timeUnix n
    · simp only [hn, if_true]
      exact ⟨"token has invalid claims: token is expired\ntoken is not valid yet", rfl,
        by decide, by decide⟩
    · simp only [hn, if_false]
      exact ⟨"token has invalid claims: token is expired", rfl, by decide, by decide⟩

theorem timeSub_gt (t u : Int) : timeSub t u > 30 * Second ↔ t - u > 30 * Second := by
  unfold timeSub maxDuration minDuration Second
  constructor
  · intro h
    split at h
    · omega
    · split at h <;> omega
  · intro h
    split
    · omega
    · split <;> omega

theorem refreshKeyFunc_HMAC (app : Application) (t : Token)
    (_ht : t.Method = SigningMethod.HMAC HashAlg.SHA256) :
    refreshKeyFunc app t = Except.ok (stringBytes app.JWTSecret) := rfl

/-- The handler `refresh` once the form is parsed and the parser has accepted
the token with an `exp`. -/
theorem refresh_parsed (P : Prim) (g : Globals) (app : Application) (now : Nat → Int)
    (resp : ResponseWriter) (req : Request) (form : Values) (claims : Claims) (exp : Int)
    (hform : req.Form = Except.ok form)
    (hparse : ParseWithClaims P (form.Get "refresh_token") (refreshKeyFunc app) (now 0)
      = Except.ok claims)
    (hexp : claims.ExpiresAt = some exp) :
    refresh P g app now resp req
      = if timeUnix exp - now 1 > 30 * Second then
          Served.returned (errorJSON resp "refresh token does not to be renewed yet"
            StatusTooEarly)
        else
          match strconvAtoi claims.Subject with
          | Except.error err => Served.returned (errorJSON resp err StatusBadRequest)
          | Except.ok userID =>
            match app.DB.GetUser userID with
            | Except.error _ =>
              Served.returned (errorJSON resp "Unknown user" StatusBadRequest)
            | Except.ok user =>
              match generateTokenPair P g app user (now 2) (now 3) with
              | Except.error err => Served.returned (errorJSON resp err StatusBadRequest)
              | Except.ok tokenPair =>
                Served.returned (writeJSON (SetCookie resp
                  { Name := refreshCookieName
                    Value := tokenPair.RefreshToken
                    Path := "/"
                    Domain := "localhost"
                    Expires := now 4 + g.RefreshTokenExpiry
                    MaxAge := g.RefreshTokenExpiry
                    Secure := true
                    HttpOnly := true
                    SameSite := SameSite.SameSiteStrictMode })
                  StatusOK (Payload.tokenPairs tokenPair)) := by
  unfold refresh
  simp only [hform, hparse, hexp]
  by_cases h : timeUnix exp - now 1 > 30 * Second
  · rw [if_pos ((timeSub_gt _ _).mpr h), if_pos h]
  · rw [if_neg (fun h2 => h ((timeSub_gt _ _).mp h2)), if_neg h]

theorem strconvAtoi_fmtSprint (i : Int) (h : isInt64 i = true) :
    strconvAtoi (fmtSprint i) = Except.ok i := by
  unfold isInt64 at h
  have h2 := of_decide_eq_true h
  unfold strconvAtoi
  rw [parseDecimal_fmtSprint]
  simp only
  rw [if_neg (by omega)]

theorem find_filter_self (h : Header) (k v : String) :
    List.find? (fun e => e.1 == k)
      (List.filter (fun e => e.1 != k) h ++ [(k, [v])]) = some (k, [v]) := by
  induction h with
  | nil => simp
  | cons a t ih =>
    by_cases ha : a.1 = k
    · have hb : (a.1 != k) = false := by simp [ha]
      rw [List.filter_cons, hb]
      exact ih
    · have hb : (a.1 != k) = true := by simp [ha]
      have hc : (a.1 == k) = false := by simp [ha]
      rw [List.filter_cons, hb]
      simp only [if_true, List.cons_append, List.find?_cons, hc]
      exact ih

theorem find_filter_other (h : Header) (k k2 v : String) (hne : k2 ≠ k) :
    List.find? (fun e => e.1 == k2)
      (List.filter (fun e => e.1 != k) h ++ [(k, [v])])
      = List.find? (fun e => e.1 == k2) h := by
  induction h with
  | nil =>
    have hc : (k == k2) = false := by simp [Ne.symm hne]
    simp only [List.filter_nil, List.nil_append, List.find?_cons, hc, List.find?_nil]
  | cons a t ih =>
    by_cases ha : a.1 = k
    · have hb : (a.1 != k) = false := by simp [ha]
      have hc : (a.1 == k2) = false := by
        have : ¬ a.1 = k2 := fun e => hne (e.symm.trans ha)
        simp [this]
      rw [List.filter_cons, hb]
      simp only [List.find?_cons, hc]
      exact ih
    · have hb : (a.1 != k) = true := by simp [ha]
      rw [List.filter_cons, hb]
      simp only [if_true, List.cons_append, List.find?_cons]
      rw [ih]

theorem Header_Get_Set_self (h : Header) (k v : String) : (Header.Set h k v).Get k = v := by
  unfold Header.Set Header.Get
  rw [find_filter_self]

theorem Header_Get_Set_other (h : Header) (k k2 v : String) (hne : k2 ≠ k) :
    (Header.Set h k v).Get k2 = h.Get k2 := by
  unfold Header.Set Header.Get
  rw [find_filter_other h k k2 v hne]

theorem writeJSON_Cookies (resp : ResponseWriter) (status : Nat) (data : Payload) :
    (writeJSON resp status data).Cookies = resp.Cookies := by
  unfold writeJSON
  split <;> rfl

theorem writeJSON_Body (resp : ResponseWriter) (status : Nat) (data : Payload) :
    (writeJSON resp status data).Body = some data := by
  unfold writeJSON
  split <;> rfl

theorem writeJSON_Code (resp : ResponseWriter) (status : Nat) (data : Payload)
    (h : resp.Code = none) : (writeJSON resp status data).Code = some status := by
  unfold writeJSON
  rw [h]

theorem errorJSON_Cookies (resp : ResponseWriter) (err : String) (status : Nat) :
    (errorJSON resp err status).Cookies = resp.Cookies :=
  writeJSON_Cookies resp status _

theorem errorJSON_Body (resp : ResponseWriter) (err : String) (status : Nat) :
    (errorJSON resp err status).Body = some (Payload.error err) :=
  writeJSON_Body resp status _

theorem errorJSON_Code (resp : ResponseWriter) (err : String) (status : Nat)
    (h : resp.Code = none) : (errorJSON resp err status).Code = some status :=
  writeJSON_Code resp status _ h

theorem refreshed_Cookies (P : Prim) (g : Globals) (app : Application) (n1 n2 n3 : Int)
    (resp : ResponseWriter) (user : User) :
    (refreshed P g app n1 n2 n3 resp user).Cookies
      = resp.Cookies ++ [issuedCookie g
          (signedToken P HashAlg.SHA256 (refreshTokenClaims g user n2)
            (stringBytes app.JWTSecret)) n3] := by
  unfold refreshed
  rw [writeJSON_Cookies]
  rfl

theorem refreshed_Code (P : Prim) (g : Globals) (app : Application) (n1 n2 n3 : Int)
    (resp : ResponseWriter) (user : User) (h : resp.Code = none) :
    (refreshed P g app n1 n2 n3 resp user).Code = some 200 := by
  unfold refreshed
  exact writeJSON_Code _ _ _ h

/-- The handler `refreshUsingCookie` when no cookie has the name of the refresh cookie. -/
theorem refreshUsingCookie_absent (P : Prim) (g : Globals) (app : Application)
    (now : Nat → Int) (resp : ResponseWriter) (req : Request)
    (h : ∀ c ∈ req.Cookies, c.Name ≠ refreshCookieName) :
    refreshUsingCookie P g app now resp req
      = errorJSON resp "Unauthorized" StatusUnauthorized := by
  have e : req.Cookies.find? (fun cookie => cookie.Name == refreshCookieName) = none := by
    rw [List.find?_eq_none]
    intro c hc
    simpa using h c hc
  unfold refreshUsingCookie
  rw [e]

/-- The handler `refreshUsingCookie` when the parser rejects the cookie's value. -/
theorem refreshUsingCookie_unparsed (P : Prim) (g : Globals) (app : Application)
    (now : Nat → Int) (resp : ResponseWriter) (req : Request) (cookie : Cookie) (err : String)
    (hfind : req.Cookies.find? (fun cookie => cookie.Name == refreshCookieName) = some cookie)
    (hparse : ParseWithClaims P cookie.Value (refreshKeyFunc app) (now 0) = Except.error err) :
    refreshUsingCookie P g app now resp req = errorJSON resp err StatusBadRequest := by
  unfold refreshUsingCookie
  simp only [hfind, hparse]

/-- The handler `refreshUsingCookie` when the subject is no decimal integer. -/
theorem refreshUsingCookie_badSubject (P : Prim) (g : Globals) (app : Application)
    (now : Nat → Int) (resp : ResponseWriter) (req : Request) (cookie : Cookie)
    (claims : Claims) (err : String)
    (hfind : req.Cookies.find? (fun cookie => cookie.Name == refreshCookieName) = some cookie)
    (hparse : ParseWithClaims P cookie.Value (refreshKeyFunc app) (now 0) = Except.ok claims)
    (hsub : strconvAtoi claims.Subject = Except.error err) :
    refreshUsingCookie P g app now resp req = errorJSON resp err StatusBadRequest := by
  unfold refreshUsingCookie
  simp only [hfind, hparse, hsub]

/-- The handler `refreshUsingCookie` when the lookup finds no user. -/
theorem refreshUsingCookie_unknownUser (P : Prim) (g : Globals) (app : Application)
    (now : Nat → Int) (resp : ResponseWriter) (req : Request) (cookie : Cookie)
    (claims : Claims) (userID : Int) (err : String)
    (hfind : req.Cookies.find? (fun cookie => cookie.Name == refreshCookieName) = some cookie)
    (hparse : ParseWithClaims P cookie.Value (refreshKeyFunc app) (now 0) = Except.ok claims)
    (hsub : strconvAtoi claims.Subject = Except.ok userID)
    (huser : app.DB.GetUser userID = Except.error err) :
    refreshUsingCookie P g app now resp req
      = errorJSON resp "Unknown user" StatusBadRequest := by
  unfold refreshUsingCookie
  simp only [hfind, hparse, hsub, huser]

/-- The handler `refreshUsingCookie` when the parser accepts the cookie's value
and the lookup returns a user. -/
theorem refreshUsingCookie_ok (P : Prim) (g : Globals) (app : Application)
    (now : Nat → Int) (resp : ResponseWriter) (req : Request) (cookie : Cookie)
    (claims : Claims) (userID : Int) (user : User)
    (hfind : req.Cookies.find? (fun cookie => cookie.Name == refreshCookieName) = some cookie)
    (hparse : ParseWithClaims P cookie.Value (refreshKeyFunc app) (now 0) = Except.ok claims)
    (hsub : strconvAtoi claims.Subject = Except.ok userID)
    (huser : app.DB.GetUser userID = Except.ok user) :
    refreshUsingCookie P g app now resp req
      = refreshed P g app (now 1) (now 2) (now 3) resp user := by
  unfold refreshUsingCookie
  simp only [hfind, hparse, hsub, huser, generateTokenPair_eq]
  rfl

/-- The handler `refresh` when the token is accepted inside the renewal window
and the lookup returns a user. -/
theorem refresh_ok (P : Prim) (g : Globals) (app : Application) (now : Nat → Int)
    (resp : ResponseWriter) (req : Request) (form : Values) (claims : Claims) (exp : Int)
    (userID : Int) (user : User)
    (hform : req.Form = Except.ok form)
    (hparse : ParseWithClaims P (form.Get "refresh_token") (refreshKeyFunc app) (now 0)
      = Except.ok claims)
    (hexp : claims.ExpiresAt = some exp)
    (hrem : timeUnix exp - now 1 ≤ 30 * Second)
    (hsub : strconvAtoi claims.Subject = Except.ok userID)
    (huser : app.DB.GetUser userID = Except.ok user) :
    refresh P g app now resp req
      = Served.returned (refreshed P g app (now 2) (now 3) (now 4) resp user) := by
  rw [refresh_parsed P g app now resp req form claims exp hform hparse hexp,
    if_neg (not_lt.mpr hrem)]
  simp only [hsub, huser, generateTokenPair_eq]
  rfl

theorem cookieRequest_find (value : String) :
    (cookieRequest [requestCookie refreshCookieName value]).Cookies.find?
        (fun cookie => cookie.Name == refreshCookieName)
      = some (requestCookie refreshCookieName value) := by
  simp [cookieRequest, requestCookie]

theorem mem_set_cookie (resp : ResponseWriter) (status : Nat) (data : Payload)
    (ck c : Cookie) (h : c ∈ (writeJSON (SetCookie resp ck) status data).Cookies) :
    c ∈ resp.Cookies ∨ c = ck := by
  rw [writeJSON_Cookies] at h
  unfold SetCookie at h
  simpa using h

theorem mem_errorJSON (resp : ResponseWriter) (err : String) (status : Nat) (c : Cookie)
    (h : c ∈ (errorJSON resp err status).Cookies) : c ∈ resp.Cookies := by
  rw [errorJSON_Cookies] at h
  exact h

/-- Every cookie in the response of `authenticate` was there before or is the
refresh cookie of the handler. -/
theorem authenticate_cookies (P : Prim) (g : Globals) (app : Application)
    (readJSON : Request → Except String Credentials)
    (cmp : List Byte → List Byte → Except String Unit)
    (now : Nat → Int) (resp : ResponseWriter) (req : Request) (c : Cookie)
    (hc : c ∈ (authenticate P g app readJSON cmp now resp req).Cookies) :
    c ∈ resp.Cookies ∨ ∃ v, c = issuedCookie g v (now 2) := by
  unfold authenticate at hc
  repeat' split at hc
  all_goals first
    | exact Or.inl (mem_errorJSON _ _ _ _ hc)
    | (rcases mem_set_cookie _ _ _ _ _ hc with h | h
       · exact Or.inl h
       · exact Or.inr ⟨_, h⟩)

/-- Every cookie in the response of `refreshUsingCookie` was there before or is
the refresh cookie of the handler. -/
theorem refreshUsingCookie_cookies (P : Prim) (g : Globals) (app : Application)
    (now : Nat → Int) (resp : ResponseWriter) (req : Request) (c : Cookie)
    (hc : c ∈ (refreshUsingCookie P g app now resp req).Cookies) :
    c ∈ resp.Cookies ∨ ∃ v, c = issuedCookie g v (now 3) := by
  unfold refreshUsingCookie at hc
  dsimp only at hc
  repeat' split at hc
  all_goals first
    | exact Or.inl (mem_errorJSON _ _ _ _ hc)
    | (rcases mem_set_cookie _ _ _ _ _ hc with h | h
       · exact Or.inl h
       · exact Or.inr ⟨_, h⟩)

/-- Every cookie in the response of `refresh` was there before or is the
refresh cookie of the handler. -/
theorem refresh_cookies (P : Prim) (g : Globals) (app : Application)
    (now : Nat → Int) (resp : ResponseWriter) (req : Request) (r : ResponseWriter)
    (c : Cookie) (hr : refresh P g app now resp req = Served.returned r)
    (hc : c ∈ r.Cookies) :
    c ∈ resp.Cookies ∨ ∃ v, c = issuedCookie g v (now 4) := by
  unfold refresh at hr
  dsimp only at hr
  repeat' split at hr
  all_goals first
    | (cases hr; done)
    | (injection hr with hr
       subst hr
       first
         | exact Or.inl (mem_errorJSON _ _ _ _ hc)
         | (rcases mem_set_cookie _ _ _ _ _ hc with h | h
            · exact Or.inl h
            · exact Or.inr ⟨_, h⟩)
         | (unfold ResponseWriter.WriteHeader at hc
            split at hc
            · exact Or.inl hc
            · exact Or.inl hc))

/-- The handler `refresh` when the parser rejects the form's token. -/
theorem refresh_unparsed (P : Prim) (g : Globals) (app : Application) (now : Nat → Int)
    (resp : ResponseWriter) (req : Request) (form : Values) (err : String)
    (hform : req.Form = Except.ok form)
    (hparse : ParseWithClaims P (form.Get "refresh_token") (refreshKeyFunc app) (now 0)
      = Except.error err) :
    refresh P g app now resp req = Served.returned (errorJSON resp err StatusBadRequest) := by
  unfold refresh
  simp only [hform, hparse]

/-- The claims the parser returns for a token of a pair `generateTokenPair`
minted for `u` carry the decimal text of the ID of `u` as their subject. -/
theorem minted_subject (P : Prim) (hP : P.Lawful) (g : Globals) (app : Application)
    (u : User) (t1 t2 now : Int) (kf : Token → Except String (List Byte)) (tok : String)
    (claims : Claims)
    (hx1 : exactSeconds (unixSeconds (t1 + g.jwtTokenExpiry)) = true)
    (hx2 : exactSeconds (unixSeconds (t2 + g.RefreshTokenExpiry)) = true)
    (hkf : ∀ t : Token, t.Method = SigningMethod.HMAC HashAlg.SHA256 →
      kf t = Except.ok (stringBytes app.JWTSecret))
    (htok : tok = signedToken P HashAlg.SHA256 (accessTokenClaims g app u t1)
        (stringBytes app.JWTSecret)
      ∨ tok = signedToken P HashAlg.SHA256 (refreshTokenClaims g u t2)
        (stringBytes app.JWTSecret))
    (hparse : ParseWithClaims P tok kf now = Except.ok claims) :
    claims.Subject = fmtSprint u.ID := by
  rcases htok with h | h
  · rw [h, ParseWithClaims_access P hP g app u t1 now kf hx1 hkf] at hparse
    split at hparse
    · injection hparse with hparse
      rw [← hparse, claimsOfMap_accessTokenClaims]
    · cases hparse
  · rw [h, ParseWithClaims_refresh P hP g app u t2 now kf hx2 hkf] at hparse
    split at hparse
    · injection hparse with hparse
      rw [← hparse, claimsOfMap_refreshTokenClaims]
    · cases hparse

theorem mapGet_sub_access (g : Globals) (app : Application) (user : User) (now : Int) :
    mapGet (accessTokenClaims g app user now) "sub" = some (JVal.str (fmtSprint user.ID)) := by
  rw [accessTokenClaims_eq]
  simp [mapGet]

theorem mapGet_sub_refresh (g : Globals) (user : User) (now : Int) :
    mapGet (refreshTokenClaims g user now) "sub" = some (JVal.str (fmtSprint user.ID)) := by
  rw [refreshTokenClaims_eq]
  simp [mapGet]

/-- The claims segment of a token `SignedString` produces is the base64url text
of the JSON of its claim map. -/
theorem claimsSegment_signedToken (P : Prim) (hP : P.Lawful) (h : HashAlg) (m : MapClaims)
    (key : List Byte) :
    claimsSegment (signedToken P h m key) = some (P.encodeSegment (P.marshalClaims m)) := by
  unfold claimsSegment signedToken signingInput
  rw [stringsSplit_segments P hP]

/-- Rounding an instant down to whole seconds loses less than a second, and
nothing exactly when the instant is a whole number of seconds. -/
theorem timeUnix_unixSeconds (t : Int) :
    timeUnix (unixSeconds t) ≤ t ∧ t < timeUnix (unixSeconds t) + Second
    ∧ (timeUnix (unixSeconds t) = t ↔ t % Second = 0) := by
  unfold timeUnix unixSeconds Second
  refine ⟨by omega, by omega, ?_⟩
  constructor <;> intro h <;> omega

/-! ## The claims -/

/-- C1, as amended: the access token of a successful `generateTokenPair`, sent
as `Authorization: Bearer token`, is accepted by `getTokenFromHeaderAndVerify`
under the same secret and domain at every instant before the instant of its
`exp` claim (the issue time plus `jwtTokenExpiry`, rounded down to a whole
second); the call returns that token string and claims whose subject is the
decimal text of the user's ID. -/
theorem issue_verify_roundtrip (P : Prim) (hP : P.Lawful) (g : Globals) (app : Application) (user : User)
    (now1 now2 now : Int) (pair : TokenPairs) (resp : ResponseWriter) (req : Request)
    (hgen : generateTokenPair P g app user now1 now2 = Except.ok pair)
    (hh : req.Header.Get "Authorization" = "Bearer " ++ pair.AccessToken)
    (hx : exactSeconds (unixSeconds (now1 + g.jwtTokenExpiry)) = true)
    (hnow : now < timeUnix (unixSeconds (now1 + g.jwtTokenExpiry))) :
    ∃ claims, (getTokenFromHeaderAndVerify P app resp req now).2
        = Except.ok (pair.AccessToken, claims)
      ∧ claims.Subject = fmtSprint user.ID := by
  rw [generateTokenPair_eq] at hgen
  injection hgen with hgen
  subst hgen
  refine ⟨claimsOfMap (accessTokenClaims g app user now1), ?_, ?_⟩
  · rw [getTokenFromHeaderAndVerify_bearer P app resp req now _ hh (signedToken_no_space _ hP _ _ _),
      ParseWithClaims_access P hP g app user now1 now _ hx (verifyKeyFunc_HMAC app _), if_pos hnow]
    simp [verdict, claimsOfMap_accessTokenClaims]
  · rw [claimsOfMap_accessTokenClaims]

/-- C1, witness: the token issued to the test user at the epoch is accepted
five nanoseconds later. -/
theorem issue_verify_roundtrip_witness :
    ∃ claims, (getTokenFromHeaderAndVerify refPrim testApp newRecorder
        (bearerRequest ("Bearer " ++ testAccessToken 0)) 5).2
        = Except.ok (testAccessToken 0, claims)
      ∧ claims.Subject = "1" :=
  issue_verify_roundtrip refPrim refPrim_lawful defaultGlobals testApp testUser 0 0 5
    { AccessToken := testAccessToken 0, RefreshToken := testRefreshToken 0 }
    newRecorder (bearerRequest ("Bearer " ++ testAccessToken 0))
    rfl rfl (by decide) (by decide)

/-- C1, counterexample to the claim as stated: a token issued half a second
after the epoch carries `exp` 900; at 900.2 seconds, which is before the issue
time plus 15 minutes, it is rejected as expired. -/
theorem issue_verify_last_second :
    (900200000000 : Int) < 500000000 + defaultGlobals.jwtTokenExpiry
    ∧ generateTokenPair refPrim defaultGlobals testApp testUser 500000000 500000000
        = Except.ok { AccessToken := testAccessToken 500000000
                      RefreshToken := testRefreshToken 500000000 }
    ∧ (getTokenFromHeaderAndVerify refPrim testApp newRecorder
        (bearerRequest ("Bearer " ++ testAccessToken 500000000)) 900200000000).2
        = Except.error "token has invalid claims: token is expired" := by
  refine ⟨by decide, rfl, ?_⟩
  unfold testAccessToken
  rw [getTokenFromHeaderAndVerify_bearer refPrim testApp newRecorder _ 900200000000 _
      (bearerRequest_get _) (signedToken_no_space _ refPrim_lawful _ _ _),
    ParseWithClaims_access refPrim refPrim_lawful defaultGlobals testApp testUser 500000000 900200000000 _
      (by decide) (verifyKeyFunc_HMAC testApp _), if_neg (by decide)]
  rfl

/-- C2: the handler `authRequired next` hands the request to `next` when
`getTokenFromHeaderAndVerify` returns no error, and otherwise answers with
status 401 by a response in which `next` has no part; the latter covers a
missing header, a header that does not split into two parts, a scheme other
than `Bearer`, a token the parser rejects (tampered, expired) and a wrong
issuer. -/
theorem authRequired_admits_exactly (P : Prim) (app : Application) (now : Int)
    (next : Handler) (resp : ResponseWriter) (req : Request) :
    (∀ v, (getTokenFromHeaderAndVerify P app resp req now).2 = Except.ok v →
      authRequired P app now next resp req = next (withVary resp) req)
    ∧ (∀ err, (getTokenFromHeaderAndVerify P app resp req now).2 = Except.error err →
      authRequired P app now next resp req = (withVary resp).WriteHeader StatusUnauthorized)
    ∧ (resp.Code = none → ((withVary resp).WriteHeader StatusUnauthorized).Code = some 401)
    ∧ (req.Header.Get "Authorization" = "" →
      authRequired P app now next resp req = (withVary resp).WriteHeader StatusUnauthorized)
    ∧ ((stringsSplit (req.Header.Get "Authorization") ' ').length ≠ 2 →
      authRequired P app now next resp req = (withVary resp).WriteHeader StatusUnauthorized)
    ∧ (∀ scheme tok, stringsSplit (req.Header.Get "Authorization") ' ' = [scheme, tok] →
      scheme ≠ "Bearer" →
      authRequired P app now next resp req = (withVary resp).WriteHeader StatusUnauthorized)
    ∧ (∀ tok err, stringsSplit (req.Header.Get "Authorization") ' ' = ["Bearer", tok] →
      ParseWithClaims P tok (verifyKeyFunc app) now = Except.error err →
      authRequired P app now next resp req = (withVary resp).WriteHeader StatusUnauthorized)
    ∧ (∀ tok claims, stringsSplit (req.Header.Get "Authorization") ' ' = ["Bearer", tok] →
      ParseWithClaims P tok (verifyKeyFunc app) now = Except.ok claims →
      claims.Issuer ≠ app.Domain →
      authRequired P app now next resp req = (withVary resp).WriteHeader StatusUnauthorized) := by
  have key : ∀ err, (getTokenFromHeaderAndVerify P app resp req now).2 = Except.error err →
      authRequired P app now next resp req
        = (withVary resp).WriteHeader StatusUnauthorized := by
    intro err h
    rw [authRequired_eq, h]
  refine ⟨?_, key, ?_, ?_, ?_, ?_, ?_, ?_⟩
  · intro v h
    rw [authRequired_eq, h]
  · intro h
    simp [ResponseWriter.WriteHeader, withVary, h, StatusUnauthorized]
  · intro h
    exact key _ (by rw [verify_missing P app resp req now h])
  · intro h
    by_cases hne : req.Header.Get "Authorization" = ""
    · exact key _ (by rw [verify_missing P app resp req now hne])
    · exact key _ (by rw [verify_invalid P app resp req now hne h])
  · intro scheme tok hsplit hs
    by_cases hne : req.Header.Get "Authorization" = ""
    · exact key _ (by rw [verify_missing P app resp req now hne])
    · exact key _ (by rw [verify_no_bearer P app resp req now scheme tok hne hsplit hs])
  · intro tok err hsplit hp
    exact key err (by rw [verify_shape_ok P app resp req now tok hsplit, hp]; rfl)
  · intro tok claims hsplit hp hi
    exact key "Incorrect issuer" (by
      rw [verify_shape_ok P app resp req now tok hsplit, hp]
      simp [verdict, hi])

/-- C3: a bearer token the parser accepts under the configured secret (so
correctly signed and unexpired) whose issuer claim differs from the configured
domain makes `getTokenFromHeaderAndVerify` return an error, hence no claims. -/
theorem issuer_pinning (P : Prim) (app : Application) (resp : ResponseWriter)
    (req : Request) (now : Int) (tok : String) (claims : Claims)
    (hh : req.Header.Get "Authorization" = "Bearer " ++ tok)
    (hp : ParseWithClaims P tok (verifyKeyFunc app) now = Except.ok claims)
    (hi : claims.Issuer ≠ app.Domain) :
    ∃ err, (getTokenFromHeaderAndVerify P app resp req now).2 = Except.error err := by
  apply verify_rejects P app resp req now tok hh
  intro claims2 hp2
  rw [hp] at hp2
  injection hp2 with hp2
  subst hp2
  exact hi

/-- C3, witness: the pair issued with domain `example.com` is rejected once the
configured domain is `anotherdomain.com`. -/
theorem issuer_pinning_witness :
    ∃ err, (getTokenFromHeaderAndVerify refPrim
        { testApp with Domain := "anotherdomain.com" } newRecorder
        (bearerRequest ("Bearer " ++ testAccessToken 0)) 5).2 = Except.error err :=
  issuer_pinning refPrim { testApp with Domain := "anotherdomain.com" } newRecorder
    (bearerRequest ("Bearer " ++ testAccessToken 0)) 5 (testAccessToken 0)
    (claimsOfMap (accessTokenClaims defaultGlobals testApp testUser 0))
    rfl
    (by
      unfold testAccessToken
      rw [ParseWithClaims_access refPrim refPrim_lawful defaultGlobals testApp testUser 0 5 _ (by decide)
        (verifyKeyFunc_HMAC { testApp with Domain := "anotherdomain.com" } _)]
      rfl)
    (by rw [claimsOfMap_accessTokenClaims]; decide)

/-- C4, on the code: a well-formed bearer token that carries a correct HMAC
signature under the configured secret and whose `exp` has passed is answered
with the error of the parser, `token has invalid claims: token is expired`,
through the generic error return; the distinguished `Token is expired` is not
what the call returns. -/
theorem expired_token_error (P : Prim) (app : Application) (resp : ResponseWriter)
    (req : Request) (now : Int) (tok : String) (t : Token) (sig : List Byte) (e : Int)
    (hh : req.Header.Get "Authorization" = "Bearer " ++ tok) (hs : ' ' ∉ tok.data)
    (hu : ParseUnverified P tok = Except.ok t)
    (hsig : P.decodeSegment t.signatureSegment = Except.ok sig)
    (hv : t.Method.Verify P t.signingString sig (stringBytes app.JWTSecret) = Except.ok ())
    (he : t.Claims.ExpiresAt = some e) (hpast : timeUnix e ≤ now) :
    ∃ err, (getTokenFromHeaderAndVerify P app resp req now).2 = Except.error err
      ∧ stringsHasPrefix err "token has invalid claims: token is expired" = true
      ∧ err ≠ "Token is expired" := by
  obtain ⟨err, h1, h2, h3⟩ := validateClaims_expired t.Claims e now he hpast
  refine ⟨err, ?_, h2, h3⟩
  rw [getTokenFromHeaderAndVerify_bearer P app resp req now tok hh hs]
  have hk : verifyKeyFunc app t = Except.ok (stringBytes app.JWTSecret) := by
    cases hm : t.Method with
    | HMAC h => exact verifyKeyFunc_HMAC app h t hm
    | other alg =>
      rw [hm] at hv
      cases hv
  have hp : ParseWithClaims P tok (verifyKeyFunc app) now = Except.error err := by
    unfold ParseWithClaims
    rw [hu]
    simp only [hk, hsig, hv, h1]
  rw [hp]
  rfl

/-- C4, witness: the access token issued to the test user at the epoch, checked
901 seconds later. -/
theorem expired_token_error_witness :
    ∃ err, (getTokenFromHeaderAndVerify refPrim testApp newRecorder
        (bearerRequest ("Bearer " ++ testAccessToken 0)) 901000000000).2 = Except.error err
      ∧ stringsHasPrefix err "token has invalid claims: token is expired" = true
      ∧ err ≠ "Token is expired" :=
  expired_token_error refPrim testApp newRecorder
    (bearerRequest ("Bearer " ++ testAccessToken 0)) 901000000000 (testAccessToken 0)
    { Method := SigningMethod.HMAC HashAlg.SHA256
      Claims := claimsOfMap (accessTokenClaims defaultGlobals testApp testUser 0)
      signingString := signingInput refPrim HashAlg.SHA256
        (accessTokenClaims defaultGlobals testApp testUser 0)
      signatureSegment := refPrim.encodeSegment
        (hmac refPrim HashAlg.SHA256 (stringBytes testApp.JWTSecret)
          (stringBytes (signingInput refPrim HashAlg.SHA256
            (accessTokenClaims defaultGlobals testApp testUser 0)))) }
    (hmac refPrim HashAlg.SHA256 (stringBytes testApp.JWTSecret)
      (stringBytes (signingInput refPrim HashAlg.SHA256
        (accessTokenClaims defaultGlobals testApp testUser 0))))
    900
    rfl (signedToken_no_space _ refPrim_lawful _ _ _)
    (ParseUnverified_signed refPrim refPrim_lawful HashAlg.SHA256 _ _
      (wellTyped_accessTokenClaims defaultGlobals testApp testUser 0 (by decide)))
    (refPrim_lawful.decode_encode _)
    (by simp [SigningMethod.Verify])
    (by rw [claimsOfMap_accessTokenClaims]; rfl)
    (by decide)

/-- C5, as amended: an access token `generateTokenPair` signs under the secret
of `app1` is rejected by `getTokenFromHeaderAndVerify` configured with the
secret of `app2` whenever the HMAC-SHA256 tags of the token's signing input
under the two secrets differ. -/
theorem secret_binding (P : Prim) (hP : P.Lawful) (g : Globals) (app1 app2 : Application) (user : User)
    (now1 now2 now : Int) (pair : TokenPairs) (resp : ResponseWriter) (req : Request)
    (hgen : generateTokenPair P g app1 user now1 now2 = Except.ok pair)
    (hh : req.Header.Get "Authorization" = "Bearer " ++ pair.AccessToken)
    (htag : hmac P HashAlg.SHA256 (stringBytes app1.JWTSecret)
        (stringBytes (signingInput P HashAlg.SHA256 (accessTokenClaims g app1 user now1)))
      ≠ hmac P HashAlg.SHA256 (stringBytes app2.JWTSecret)
        (stringBytes (signingInput P HashAlg.SHA256 (accessTokenClaims g app1 user now1)))) :
    ∃ err, (getTokenFromHeaderAndVerify P app2 resp req now).2 = Except.error err := by
  rw [generateTokenPair_eq] at hgen
  injection hgen with hgen
  subst hgen
  apply verify_rejects P app2 resp req now _ hh
  intro claims hp
  exfalso
  unfold ParseWithClaims signedToken at hp
  split at hp
  · cases hp
  · rename_i t hu
    obtain ⟨hm, hss, hseg⟩ := ParseUnverified_signed_inv P hP _ _ _ t hu
    simp only [verifyKeyFunc_HMAC app2 _ t hm, hseg, hP.decode_encode, hm, hss,
      SigningMethod.Verify, htag, if_false] at hp
    cases hp

/-- C5, witness: with the reference primitives the secrets `a` and `b` give
different tags, and the token signed under `a` is rejected under `b`. -/
theorem secret_binding_witness :
    ∃ err, (getTokenFromHeaderAndVerify refPrim (appWithSecret "b") newRecorder
        (bearerRequest ("Bearer " ++ signedToken refPrim HashAlg.SHA256
          (accessTokenClaims defaultGlobals (appWithSecret "a") testUser 0)
          (stringBytes "a"))) 5).2 = Except.error err :=
  secret_binding refPrim refPrim_lawful defaultGlobals (appWithSecret "a") (appWithSecret "b") testUser 0 0 5
    { AccessToken := signedToken refPrim HashAlg.SHA256
        (accessTokenClaims defaultGlobals (appWithSecret "a") testUser 0) (stringBytes "a")
      RefreshToken := signedToken refPrim HashAlg.SHA256
        (refreshTokenClaims defaultGlobals testUser 0) (stringBytes "a") }
    newRecorder _ rfl rfl (by decide)

/-- C5, counterexample to the claim as stated: the secrets `k` and `k` followed
by a zero byte are different, and the access token `generateTokenPair` signs
under the first is accepted under the second, because HMAC pads a short key
with zero bytes. -/
theorem secret_binding_zero_padded :
    "k" ≠ "k\x00"
    ∧ generateTokenPair refPrim defaultGlobals (appWithSecret "k") testUser 0 0
        = Except.ok
            { AccessToken := signedToken refPrim HashAlg.SHA256
                (accessTokenClaims defaultGlobals (appWithSecret "k") testUser 0)
                (stringBytes "k")
              RefreshToken := signedToken refPrim HashAlg.SHA256
                (refreshTokenClaims defaultGlobals testUser 0) (stringBytes "k") }
    ∧ (getTokenFromHeaderAndVerify refPrim (appWithSecret "k\x00") newRecorder
        (bearerRequest ("Bearer " ++ signedToken refPrim HashAlg.SHA256
          (accessTokenClaims defaultGlobals (appWithSecret "k") testUser 0)
          (stringBytes "k"))) 5).2
        = Except.ok (signedToken refPrim HashAlg.SHA256
            (accessTokenClaims defaultGlobals (appWithSecret "k") testUser 0)
            (stringBytes "k"),
          claimsOfMap (accessTokenClaims defaultGlobals (appWithSecret "k") testUser 0)) := by
  refine ⟨by decide, rfl, ?_⟩
  have hb : stringBytes (appWithSecret "k\x00").JWTSecret = stringBytes "k" ++ [0] := by decide
  have hl : (stringBytes "k").length < HashAlg.SHA256.blockSize := by decide
  rw [verify_signed refPrim refPrim_lawful (appWithSecret "k\x00") newRecorder _ 5 HashAlg.SHA256 _ _
      (wellTyped_accessTokenClaims defaultGlobals (appWithSecret "k") testUser 0 (by decide))
      (bearerRequest_get _),
    hb, hmac_append_zero refPrim HashAlg.SHA256 _ _ hl, if_pos rfl,
    validateClaims_of_exp _ 900 5 (by rw [claimsOfMap_accessTokenClaims]; rfl)
      (by rw [claimsOfMap_accessTokenClaims]),
    if_pos (by decide)]
  simp [verdict, claimsOfMap_accessTokenClaims, appWithSecret]

/-- C6: a bearer token whose header asserts an `alg` other than HS256, HS384 and
HS512 makes `getTokenFromHeaderAndVerify` return an error, whatever its claim
and signature segments hold; and the key function yields a key only for a
token of an HMAC method, the key then being the configured secret. -/
theorem algorithm_allow_list (P : Prim) (app : Application) (resp : ResponseWriter)
    (req : Request) (now : Int) (tok a : String)
    (hh : req.Header.Get "Authorization" = "Bearer " ++ tok)
    (ha : tokenAlg P tok = some a)
    (hn : a ≠ "HS256" ∧ a ≠ "HS384" ∧ a ≠ "HS512") :
    (∃ err, (getTokenFromHeaderAndVerify P app resp req now).2 = Except.error err)
    ∧ (∀ t key, verifyKeyFunc app t = Except.ok key →
        (∃ h, t.Method = SigningMethod.HMAC h) ∧ key = stringBytes app.JWTSecret) := by
  constructor
  · apply verify_rejects P app resp req now tok hh
    intro claims hp
    exfalso
    unfold ParseWithClaims at hp
    split at hp
    · cases hp
    · rename_i t hu
      obtain ⟨a2, ha2, hm⟩ := ParseUnverified_alg P tok t hu
      rw [ha] at ha2
      injection ha2 with ha2
      subst ha2
      have hk : ∃ e, verifyKeyFunc app t = Except.error e := by
        unfold GetSigningMethod at hm
        simp only [hn.1, hn.2.1, hn.2.2, if_false] at hm
        split at hm
        · injection hm with hm
          rw [verifyKeyFunc, ← hm]
          exact ⟨_, rfl⟩
        · cases hm
      obtain ⟨e, hk⟩ := hk
      simp only [hk] at hp
      cases hp
  · intro t key hk
    unfold verifyKeyFunc at hk
    split at hk
    · rename_i h hm
      injection hk with hk
      exact ⟨⟨h, hm⟩, hk.symm⟩
    · cases hk

/-- C6, witness: a token whose header asserts `none`, with any claim segment and
an empty signature, is rejected. -/
theorem algorithm_allow_list_witness :
    (∃ err, (getTokenFromHeaderAndVerify refPrim testApp newRecorder
        (bearerRequest ("Bearer " ++ (refPrim.encodeSegment (refPrim.marshalHeader "none")
          ++ "." ++ refPrim.encodeSegment (refPrim.marshalClaims
            (accessTokenClaims defaultGlobals testApp testUser 0))
          ++ "." ++ refPrim.encodeSegment []))) 5).2 = Except.error err)
    ∧ (∀ t key, verifyKeyFunc testApp t = Except.ok key →
        (∃ h, t.Method = SigningMethod.HMAC h) ∧ key = stringBytes testApp.JWTSecret) :=
  algorithm_allow_list refPrim testApp newRecorder _ 5
    (refPrim.encodeSegment (refPrim.marshalHeader "none")
      ++ "." ++ refPrim.encodeSegment (refPrim.marshalClaims
        (accessTokenClaims defaultGlobals testApp testUser 0))
      ++ "." ++ refPrim.encodeSegment [])
    "none" rfl
    (by
      unfold tokenAlg
      rw [stringsSplit_segments refPrim refPrim_lawful]
      simp only [refPrim_lawful.decode_encode, refPrim_lawful.header_roundtrip])
    (by decide)

/-- C7, as amended: for a non-empty Authorization header value,
`getTokenFromHeaderAndVerify` goes on to parse the token exactly when splitting
the value at the space character yields two parts of which the first is
`Bearer`, which is when the value is `Bearer`, one space and a token without a
space; when the split yields another number of parts it answers
`Invalid Authorization header`, and when the first of two parts is not
`Bearer` it answers `Unauthorized: no Bearer`, neither of which involves the
parser. -/
theorem header_shape_rule (P : Prim) (app : Application) (resp : ResponseWriter)
    (req : Request) (now : Int) (hne : req.Header.Get "Authorization" ≠ "") :
    (∀ tok, stringsSplit (req.Header.Get "Authorization") ' ' = ["Bearer", tok] →
      req.Header.Get "Authorization" = "Bearer " ++ tok ∧ ' ' ∉ tok.data
      ∧ getTokenFromHeaderAndVerify P app resp req now
        = (withVary resp, verdict app tok (ParseWithClaims P tok (verifyKeyFunc app) now)))
    ∧ ((stringsSplit (req.Header.Get "Authorization") ' ').length ≠ 2 →
      getTokenFromHeaderAndVerify P app resp req now
        = (withVary resp, Except.error "Invalid Authorization header"))
    ∧ (∀ scheme tok, stringsSplit (req.Header.Get "Authorization") ' ' = [scheme, tok] →
      scheme ≠ "Bearer" →
      getTokenFromHeaderAndVerify P app resp req now
        = (withVary resp, Except.error "Unauthorized: no Bearer")) := by
  refine ⟨?_, ?_, ?_⟩
  · intro tok hsplit
    obtain ⟨h1, h2⟩ := (stringsSplit_bearer_iff _ tok).mp hsplit
    exact ⟨h1, h2, verify_shape_ok P app resp req now tok hsplit⟩
  · intro hl
    exact verify_invalid P app resp req now hne hl
  · intro scheme tok hsplit hs
    exact verify_no_bearer P app resp req now scheme tok hne hsplit hs

/-- C7, witness: the three-part value of the tests is answered with
`Invalid Authorization header`. -/
theorem header_shape_rule_witness :
    getTokenFromHeaderAndVerify refPrim testApp newRecorder
        (bearerRequest "Bearer abc world") 0
      = (withVary newRecorder, Except.error "Invalid Authorization header") :=
  (header_shape_rule refPrim testApp newRecorder (bearerRequest "Bearer abc world") 0
    (by decide)).2.1 (by decide)

/-- C7, counterexample to the claim as stated: split on whitespace, the value
`Bearer`, a tab, `tok` yields the two parts `Bearer` and `tok`, yet the code,
which splits at the space character alone, sees one part and rejects it. -/
theorem header_shape_tab :
    splitOnWhitespace "Bearer\ttok" = ["Bearer", "tok"]
    ∧ (bearerRequest "Bearer\ttok").Header.Get "Authorization" ≠ ""
    ∧ getTokenFromHeaderAndVerify refPrim testApp newRecorder (bearerRequest "Bearer\ttok") 0
      = (withVary newRecorder, Except.error "Invalid Authorization header") := by
  refine ⟨by decide, by decide, ?_⟩
  exact verify_invalid refPrim testApp newRecorder (bearerRequest "Bearer\ttok") 0
    (by decide) (by decide)

/-- C8, as amended: `generateTokenPair` succeeds; its access token is the
HS256-signed token whose claims segment encodes exactly the claims `name`
(first name, a space, last name), `sub` (the decimal text of the ID), `aud` and
`iss` (the domain), `exp` and `admin` (whether `IsAdmin` is 1), its refresh
token the one whose claims segment encodes exactly `sub` and `exp`, with no
`iss`, `aud`, `name` or `admin`.  Each `exp` is the Unix time in whole seconds,
rounded down, of its own clock reading plus 15 minutes (24 hours for the
refresh token): it is at most that instant, less than a second before it, and
equal to it exactly when the clock reading is a whole number of seconds.  The
parser reads these claims back from the two tokens. -/
theorem issued_claim_sets (P : Prim) (app : Application) (user : User) (now1 now2 : Int) :
    ∃ access refresh,
      generateTokenPair P defaultGlobals app user now1 now2
        = Except.ok { AccessToken := access, RefreshToken := refresh }
      ∧ SignedString P SigningMethodHS256
          (accessTokenClaims defaultGlobals app user now1) (stringBytes app.JWTSecret)
        = Except.ok access
      ∧ SignedString P SigningMethodHS256
          (refreshTokenClaims defaultGlobals user now2) (stringBytes app.JWTSecret)
        = Except.ok refresh
      ∧ accessTokenClaims defaultGlobals app user now1
        = [("name", JVal.str (user.FirstName ++ " " ++ user.LastName)),
           ("sub", JVal.str (fmtSprint user.ID)),
           ("aud", JVal.str app.Domain),
           ("iss", JVal.str app.Domain),
           ("exp", JVal.num (unixSeconds (now1 + Minute * 15))),
           ("admin", JVal.bool (decide (user.IsAdmin = 1)))]
      ∧ refreshTokenClaims defaultGlobals user now2
        = [("sub", JVal.str (fmtSprint user.ID)),
           ("exp", JVal.num (unixSeconds (now2 + Hour * 24)))]
      ∧ mapGet (refreshTokenClaims defaultGlobals user now2) "iss" = none
      ∧ mapGet (refreshTokenClaims defaultGlobals user now2) "aud" = none
      ∧ mapGet (refreshTokenClaims defaultGlobals user now2) "name" = none
      ∧ mapGet (refreshTokenClaims defaultGlobals user now2) "admin" = none
      ∧ timeUnix (unixSeconds (now1 + Minute * 15)) ≤ now1 + Minute * 15
      ∧ now1 + Minute * 15 < timeUnix (unixSeconds (now1 + Minute * 15)) + Second
      ∧ (timeUnix (unixSeconds (now1 + Minute * 15)) = now1 + Minute * 15
          ↔ now1 % Second = 0)
      ∧ timeUnix (unixSeconds (now2 + Hour * 24)) ≤ now2 + Hour * 24
      ∧ now2 + Hour * 24 < timeUnix (unixSeconds (now2 + Hour * 24)) + Second
      ∧ (timeUnix (unixSeconds (now2 + Hour * 24)) = now2 + Hour * 24
          ↔ now2 % Second = 0)
      ∧ (P.Lawful →
          claimsSegment access
            = some (P.encodeSegment (P.marshalClaims
                (accessTokenClaims defaultGlobals app user now1)))
          ∧ claimsSegment refresh
            = some (P.encodeSegment (P.marshalClaims
                (refreshTokenClaims defaultGlobals user now2))))
      ∧ (P.Lawful → exactSeconds (unixSeconds (now1 + Minute * 15)) = true →
          ∃ t, ParseUnverified P access = Except.ok t
            ∧ t.Method = SigningMethodHS256
            ∧ t.Claims
              = { Issuer := app.Domain, Subject := fmtSprint user.ID
                  Audience := [app.Domain]
                  ExpiresAt := some (unixSeconds (now1 + Minute * 15))
                  NotBefore := none, IssuedAt := none, ID := "", Username := "" })
      ∧ (P.Lawful → exactSeconds (unixSeconds (now2 + Hour * 24)) = true →
          ∃ t, ParseUnverified P refresh = Except.ok t
            ∧ t.Method = SigningMethodHS256
            ∧ t.Claims
              = { Issuer := "", Subject := fmtSprint user.ID
                  Audience := []
                  ExpiresAt := some (unixSeconds (now2 + Hour * 24))
                  NotBefore := none, IssuedAt := none, ID := "", Username := "" }) := by
  have ha := timeUnix_unixSeconds (now1 + Minute * 15)
  have hr := timeUnix_unixSeconds (now2 + Hour * 24)
  have ea : (now1 + Minute * 15) % Second = 0 ↔ now1 % Second = 0 := by
    unfold Minute Second
    constructor <;> intro h <;> omega
  have er : (now2 + Hour * 24) % Second = 0 ↔ now2 % Second = 0 := by
    unfold Hour Minute Second
    constructor <;> intro h <;> omega
  refine ⟨_, _, generateTokenPair_eq P defaultGlobals app user now1 now2, rfl, rfl,
    accessTokenClaims_eq defaultGlobals app user now1,
    refreshTokenClaims_eq defaultGlobals user now2, ?_, ?_, ?_, ?_,
    ha.1, ha.2.1, ha.2.2.trans ea, hr.1, hr.2.1, hr.2.2.trans er, ?_, ?_, ?_⟩
  · rw [refreshTokenClaims_eq]
    simp [mapGet]
  · rw [refreshTokenClaims_eq]
    simp [mapGet]
  · rw [refreshTokenClaims_eq]
    simp [mapGet]
  · rw [refreshTokenClaims_eq]
    simp [mapGet]
  · intro hP
    exact ⟨claimsSegment_signedToken P hP _ _ _, claimsSegment_signedToken P hP _ _ _⟩
  · intro hP hx
    refine ⟨_, ParseUnverified_signed P hP HashAlg.SHA256
      (accessTokenClaims defaultGlobals app user now1) _
      (wellTyped_accessTokenClaims defaultGlobals app user now1 hx), rfl, ?_⟩
    exact claimsOfMap_accessTokenClaims defaultGlobals app user now1
  · intro hP hx
    refine ⟨_, ParseUnverified_signed P hP HashAlg.SHA256
      (refreshTokenClaims defaultGlobals user now2) _
      (wellTyped_refreshTokenClaims defaultGlobals user now2 hx), rfl, ?_⟩
    exact claimsOfMap_refreshTokenClaims defaultGlobals user now2

/-- C8, witness: the pair issued to the test user at the epoch; the parser
reads `exp` 900 from its access token and `exp` 86400 from its refresh token,
which here are the clock reading plus 15 minutes and plus 24 hours. -/
theorem issued_claim_sets_witness :
    (∃ t, ParseUnverified refPrim (testAccessToken 0) = Except.ok t
      ∧ t.Claims.Subject = "1" ∧ t.Claims.Issuer = "example.com"
      ∧ t.Claims.Audience = ["example.com"] ∧ t.Claims.ExpiresAt = some 900)
    ∧ (∃ t, ParseUnverified refPrim (testRefreshToken 0) = Except.ok t
      ∧ t.Claims.Subject = "1" ∧ t.Claims.Issuer = ""
      ∧ t.Claims.Audience = [] ∧ t.Claims.ExpiresAt = some 86400)
    ∧ timeUnix 900 = 0 + Minute * 15
    ∧ timeUnix 86400 = 0 + Hour * 24 := by
  obtain ⟨access, refresh, hgen, _, _, _, _, _, _, _, _, _, _, _, _, _, _, _, h1, h2⟩ :=
    issued_claim_sets refPrim testApp testUser 0 0
  rw [generateTokenPair_eq] at hgen
  injection hgen with hgen
  injection hgen with hacc href
  obtain ⟨t1, ht1, _, hc1⟩ := h1 refPrim_lawful (by decide)
  obtain ⟨t2, ht2, _, hc2⟩ := h2 refPrim_lawful (by decide)
  refine ⟨⟨t1, ?_, ?_, ?_, ?_, ?_⟩, ⟨t2, ?_, ?_, ?_, ?_, ?_⟩, by decide, by decide⟩
  · rw [← ht1, ← hacc]
    rfl
  · rw [hc1]
    rfl
  · rw [hc1]
    rfl
  · rw [hc1]
    rfl
  · rw [hc1]
    rfl
  · rw [← ht2, ← href]
    rfl
  · rw [hc2]
    rfl
  · rw [hc2]
  · rw [hc2]
  · rw [hc2]
    rfl

/-- C8, counterexample to the claim as stated: the pair issued to the test user
half a second after the epoch carries `exp` 900 in its access token and `exp`
86400 in its refresh token, which are not the issue time plus 15 minutes and
plus 24 hours (900.5 and 86400.5 seconds); no whole number of seconds is. -/
theorem issued_exp_rounded_down :
    generateTokenPair refPrim defaultGlobals testApp testUser 500000000 500000000
      = Except.ok { AccessToken := testAccessToken 500000000
                    RefreshToken := testRefreshToken 500000000 }
    ∧ mapGet (accessTokenClaims defaultGlobals testApp testUser 500000000) "exp"
      = some (JVal.num 900)
    ∧ mapGet (refreshTokenClaims defaultGlobals testUser 500000000) "exp"
      = some (JVal.num 86400)
    ∧ (∃ t, ParseUnverified refPrim (testAccessToken 500000000) = Except.ok t
      ∧ t.Claims.ExpiresAt = some 900)
    ∧ (∃ t, ParseUnverified refPrim (testRefreshToken 500000000) = Except.ok t
      ∧ t.Claims.ExpiresAt = some 86400)
    ∧ timeUnix 900 ≠ 500000000 + Minute * 15
    ∧ timeUnix 86400 ≠ 500000000 + Hour * 24
    ∧ (∀ exp : Int, timeUnix exp ≠ 500000000 + Minute * 15)
    ∧ (∀ exp : Int, timeUnix exp ≠ 500000000 + Hour * 24) := by
  refine ⟨rfl, ?_, ?_, ⟨_, ParseUnverified_signed refPrim refPrim_lawful HashAlg.SHA256
      (accessTokenClaims defaultGlobals testApp testUser 500000000) _
      (wellTyped_accessTokenClaims defaultGlobals testApp testUser 500000000 (by decide)), ?_⟩,
    ⟨_, ParseUnverified_signed refPrim refPrim_lawful HashAlg.SHA256
      (refreshTokenClaims defaultGlobals testUser 500000000) _
      (wellTyped_refreshTokenClaims defaultGlobals testUser 500000000 (by decide)), ?_⟩,
    by decide, by decide, ?_, ?_⟩
  · rw [accessTokenClaims_eq]
    rfl
  · rw [refreshTokenClaims_eq]
    rfl
  · show (claimsOfMap (accessTokenClaims defaultGlobals testApp testUser 500000000)).ExpiresAt
      = some 900
    rw [claimsOfMap_accessTokenClaims]
    rfl
  · show (claimsOfMap (refreshTokenClaims defaultGlobals testUser 500000000)).ExpiresAt
      = some 86400
    rw [claimsOfMap_refreshTokenClaims]
    rfl
  · intro exp h
    unfold timeUnix Minute Second at h
    omega
  · intro exp h
    unfold timeUnix Hour Minute Second at h
    omega

/-- C9: when the form-submitted refresh token is accepted by the parser
(correctly signed, unexpired) and its `exp` lies more than 30 seconds after the
clock reading of the renewal check, `refresh` answers with status 425, sets no
cookie and returns an error document instead of a token pair, whatever the
identity lookup holds. -/
theorem refresh_too_early (P : Prim) (g : Globals) (app : Application) (now : Nat → Int)
    (resp : ResponseWriter) (req : Request) (form : Values) (claims : Claims) (exp : Int)
    (hform : req.Form = Except.ok form)
    (hparse : ParseWithClaims P (form.Get "refresh_token") (refreshKeyFunc app) (now 0)
      = Except.ok claims)
    (hexp : claims.ExpiresAt = some exp)
    (hrem : timeUnix exp - now 1 > 30 * Second) :
    (∀ db : DatabaseRepo,
      refresh P g { app with DB := db } now resp req
        = Served.returned (errorJSON resp "refresh token does not to be renewed yet"
            StatusTooEarly))
    ∧ (resp.Code = none →
      (errorJSON resp "refresh token does not to be renewed yet" StatusTooEarly).Code
        = some 425)
    ∧ (errorJSON resp "refresh token does not to be renewed yet" StatusTooEarly).Cookies
        = resp.Cookies
    ∧ (∀ t, (errorJSON resp "refresh token does not to be renewed yet" StatusTooEarly).Body
        ≠ some (Payload.tokenPairs t)) := by
  refine ⟨?_, ?_, ?_, ?_⟩
  · intro db
    rw [refresh_parsed P g { app with DB := db } now resp req form claims exp hform hparse hexp,
      if_pos hrem]
  · intro h
    simp [errorJSON, writeJSON, h, StatusTooEarly]
  · unfold errorJSON writeJSON
    split <;> rfl
  · intro t
    unfold errorJSON writeJSON
    split <;> simp

/-- C9, witness: the refresh token issued at the epoch, presented at the epoch,
has 86400 seconds left. -/
theorem refresh_too_early_witness :
    refresh refPrim defaultGlobals testApp (fun _ => 0) newRecorder
        (refreshRequest (testRefreshToken 0))
      = Served.returned (errorJSON newRecorder "refresh token does not to be renewed yet"
          StatusTooEarly) :=
  (refresh_too_early refPrim defaultGlobals testApp (fun _ => 0) newRecorder
    (refreshRequest (testRefreshToken 0)) [("refresh_token", [testRefreshToken 0])]
    (claimsOfMap (refreshTokenClaims defaultGlobals testUser 0)) 86400
    rfl
    (by
      show ParseWithClaims refPrim (testRefreshToken 0) (refreshKeyFunc testApp) 0 = _
      unfold testRefreshToken
      rw [ParseWithClaims_refresh refPrim refPrim_lawful defaultGlobals testApp testUser 0 0 _ (by decide)
        (refreshKeyFunc_HMAC testApp)]
      rfl)
    (by rw [claimsOfMap_refreshTokenClaims]; rfl)
    (by decide)).1 testDB

/-- C10: when the form-submitted refresh token is accepted by the parser, its
`exp` lies at most 30 seconds after the clock reading of the renewal check and
its subject is the identifier of a user the lookup returns, `refresh` answers
with status 200 and the pair `generateTokenPair` mints for that user, and sets
the refresh cookie to the new refresh token; with the 24-hour refresh lifetime
and a clock that does not run backwards the new refresh token is another string
than the presented one. -/
theorem refresh_accepts (P : Prim) (hP : P.Lawful) (g : Globals) (app : Application) (now : Nat → Int)
    (resp : ResponseWriter) (req : Request) (form : Values) (claims : Claims) (exp : Int)
    (userID : Int) (user : User)
    (hform : req.Form = Except.ok form)
    (hparse : ParseWithClaims P (form.Get "refresh_token") (refreshKeyFunc app) (now 0)
      = Except.ok claims)
    (hexp : claims.ExpiresAt = some exp)
    (hrem : timeUnix exp - now 1 ≤ 30 * Second)
    (hsub : strconvAtoi claims.Subject = Except.ok userID)
    (huser : app.DB.GetUser userID = Except.ok user) :
    ∃ pair, generateTokenPair P g app user (now 2) (now 3) = Except.ok pair
      ∧ refresh P g app now resp req
        = Served.returned (writeJSON (SetCookie resp
            { Name := refreshCookieName
              Value := pair.RefreshToken
              Path := "/"
              Domain := "localhost"
              Expires := now 4 + g.RefreshTokenExpiry
              MaxAge := g.RefreshTokenExpiry
              Secure := true
              HttpOnly := true
              SameSite := SameSite.SameSiteStrictMode })
            StatusOK (Payload.tokenPairs pair))
      ∧ (resp.Code = none → ∃ r, refresh P g app now resp req = Served.returned r
          ∧ r.Code = some 200 ∧ r.Body = some (Payload.tokenPairs pair)
          ∧ ∃ cookie, r.Cookies = resp.Cookies ++ [cookie]
            ∧ cookie.Name = "__Host-refresh_token" ∧ cookie.Value = pair.RefreshToken)
      ∧ (g.RefreshTokenExpiry = Hour * 24 → now 1 ≤ now 3 →
          exactSeconds (unixSeconds (now 3 + g.RefreshTokenExpiry)) = true →
          pair.RefreshToken ≠ form.Get "refresh_token") := by
  have hnot : ¬ timeUnix exp - now 1 > 30 * Second := not_lt.mpr hrem
  have hr := refresh_parsed P g app now resp req form claims exp hform hparse hexp
  rw [if_neg hnot] at hr
  simp only [hsub, huser, generateTokenPair_eq] at hr
  refine ⟨_, generateTokenPair_eq P g app user (now 2) (now 3), hr, ?_, ?_⟩
  · intro hc
    refine ⟨_, hr, ?_, ?_,
      { Name := refreshCookieName
        Value := signedToken P HashAlg.SHA256 (refreshTokenClaims g user (now 3))
          (stringBytes app.JWTSecret)
        Path := "/"
        Domain := "localhost"
        Expires := now 4 + g.RefreshTokenExpiry
        MaxAge := g.RefreshTokenExpiry
        Secure := true
        HttpOnly := true
        SameSite := SameSite.SameSiteStrictMode }, ?_, rfl, rfl⟩
    · simp [writeJSON, SetCookie, hc, StatusOK]
    · simp [writeJSON, SetCookie, hc]
    · simp [writeJSON, SetCookie, hc]
  · intro hg hmono hx heq
    simp only at heq
    rw [← heq, ParseWithClaims_refresh P hP g app user (now 3) (now 0) _ hx
      (refreshKeyFunc_HMAC app)] at hparse
    split at hparse
    · injection hparse with hparse
      rw [← hparse, claimsOfMap_refreshTokenClaims] at hexp
      simp only [Option.some.injEq] at hexp
      rw [← hexp, hg] at hrem
      unfold timeUnix unixSeconds Hour Minute Second at hrem
      omega
    · cases hparse

/-- C10, witness: the refresh token issued at the epoch has 20 seconds left at
86380 seconds; `refresh` answers with a new pair whose refresh token differs. -/
theorem refresh_accepts_witness :
    ∃ pair, generateTokenPair refPrim defaultGlobals testApp testUser 86380000000000
          86380000000000 = Except.ok pair
      ∧ refresh refPrim defaultGlobals testApp (fun _ => 86380000000000) newRecorder
          (refreshRequest (testRefreshToken 0))
        = Served.returned (writeJSON (SetCookie newRecorder
            { Name := refreshCookieName
              Value := pair.RefreshToken
              Path := "/"
              Domain := "localhost"
              Expires := 86380000000000 + defaultGlobals.RefreshTokenExpiry
              MaxAge := defaultGlobals.RefreshTokenExpiry
              Secure := true
              HttpOnly := true
              SameSite := SameSite.SameSiteStrictMode })
            StatusOK (Payload.tokenPairs pair))
      ∧ pair.RefreshToken ≠ testRefreshToken 0 := by
  obtain ⟨pair, h1, h2, _, h4⟩ := refresh_accepts refPrim refPrim_lawful defaultGlobals testApp
    (fun _ => 86380000000000) newRecorder (refreshRequest (testRefreshToken 0))
    [("refresh_token", [testRefreshToken 0])]
    (claimsOfMap (refreshTokenClaims defaultGlobals testUser 0)) 86400 1 testUser
    rfl
    (by
      show ParseWithClaims refPrim (testRefreshToken 0) (refreshKeyFunc testApp)
        86380000000000 = _
      unfold testRefreshToken
      rw [ParseWithClaims_refresh refPrim refPrim_lawful defaultGlobals testApp testUser 0 86380000000000 _
        (by decide) (refreshKeyFunc_HMAC testApp)]
      rfl)
    (by rw [claimsOfMap_refreshTokenClaims]; rfl)
    (by decide)
    (by rw [claimsOfMap_refreshTokenClaims]; rfl)
    rfl
  exact ⟨pair, h1, h2, h4 rfl (le_refl _) (by decide)⟩

/-- C11: when no cookie of the request has the name of the refresh cookie,
`refreshUsingCookie` answers with status 401; when the first cookie of that
name carries a token the parser accepts (correctly signed, unexpired) whose
subject is the identifier of a user the lookup returns, it answers with status
200 and the pair `generateTokenPair` mints for that user and sets the refresh
cookie to the new refresh token, with no condition on how long the presented
token still has to live. -/
theorem cookie_refresh_no_window (P : Prim) (g : Globals) (app : Application)
    (now : Nat → Int) (resp : ResponseWriter) (req : Request) :
    ((∀ c ∈ req.Cookies, c.Name ≠ refreshCookieName) →
      refreshUsingCookie P g app now resp req
        = errorJSON resp "Unauthorized" StatusUnauthorized
      ∧ (resp.Code = none → (refreshUsingCookie P g app now resp req).Code = some 401))
    ∧ (∀ cookie claims userID user,
      req.Cookies.find? (fun cookie => cookie.Name == refreshCookieName) = some cookie →
      ParseWithClaims P cookie.Value (refreshKeyFunc app) (now 0) = Except.ok claims →
      strconvAtoi claims.Subject = Except.ok userID →
      app.DB.GetUser userID = Except.ok user →
      ∃ pair, generateTokenPair P g app user (now 1) (now 2) = Except.ok pair
        ∧ refreshUsingCookie P g app now resp req
          = writeJSON (SetCookie resp (issuedCookie g pair.RefreshToken (now 3)))
              StatusOK (Payload.tokenPairs pair)
        ∧ (resp.Code = none → (refreshUsingCookie P g app now resp req).Code = some 200)
        ∧ (refreshUsingCookie P g app now resp req).Cookies
          = resp.Cookies ++ [issuedCookie g pair.RefreshToken (now 3)]
        ∧ (refreshUsingCookie P g app now resp req).Body
          = some (Payload.tokenPairs pair)) := by
  constructor
  · intro h
    rw [refreshUsingCookie_absent P g app now resp req h]
    exact ⟨rfl, fun hc => errorJSON_Code resp _ _ hc⟩
  · intro cookie claims userID user hfind hparse hsub huser
    rw [refreshUsingCookie_ok P g app now resp req cookie claims userID user hfind hparse
      hsub huser]
    refine ⟨_, generateTokenPair_eq P g app user (now 1) (now 2), rfl, ?_, ?_, ?_⟩
    · intro hc
      exact refreshed_Code P g app _ _ _ resp user hc
    · exact refreshed_Cookies P g app _ _ _ resp user
    · unfold refreshed
      rw [writeJSON_Body]

/-- C11, witness: the refresh token issued at the epoch, presented in the cookie
at the epoch with 86400 seconds left, is exchanged with status 200. -/
theorem cookie_refresh_no_window_witness :
    timeUnix 86400 - 0 > 30 * Second
    ∧ (refreshUsingCookie refPrim defaultGlobals testApp (fun _ => 0) newRecorder
        (cookieRequest [requestCookie refreshCookieName (testRefreshToken 0)])).Code
      = some 200 := by
  obtain ⟨_, _, _, h3, _⟩ := (cookie_refresh_no_window refPrim defaultGlobals testApp
    (fun _ => 0) newRecorder
    (cookieRequest [requestCookie refreshCookieName (testRefreshToken 0)])).2
    (requestCookie refreshCookieName (testRefreshToken 0))
    (claimsOfMap (refreshTokenClaims defaultGlobals testUser 0)) 1 testUser
    (cookieRequest_find _)
    (by
      show ParseWithClaims refPrim (testRefreshToken 0) (refreshKeyFunc testApp) 0 = _
      unfold testRefreshToken
      rw [ParseWithClaims_refresh refPrim refPrim_lawful defaultGlobals testApp testUser 0 0 _
        (by decide) (refreshKeyFunc_HMAC testApp)]
      rfl)
    (by rw [claimsOfMap_refreshTokenClaims]; rfl)
    rfl
  exact ⟨by decide, h3 rfl⟩

/-- C12, as amended: on a successful cookie-presented refresh the new refresh
token, returned in the response and written to the refresh cookie, is another
string than the presented one whenever the `exp` of the presented token is not
the `exp` of the new one (the Unix second of the mint time plus
`RefreshTokenExpiry`) or its subject is not the decimal text of the user's
ID. -/
theorem cookie_rotation (P : Prim) (hP : P.Lawful) (g : Globals) (app : Application)
    (now : Nat → Int) (resp : ResponseWriter) (req : Request) (cookie : Cookie)
    (claims : Claims) (userID : Int) (user : User)
    (hfind : req.Cookies.find? (fun cookie => cookie.Name == refreshCookieName) = some cookie)
    (hparse : ParseWithClaims P cookie.Value (refreshKeyFunc app) (now 0) = Except.ok claims)
    (hsub : strconvAtoi claims.Subject = Except.ok userID)
    (huser : app.DB.GetUser userID = Except.ok user)
    (hx : exactSeconds (unixSeconds (now 2 + g.RefreshTokenExpiry)) = true)
    (hdiff : claims.ExpiresAt ≠ some (unixSeconds (now 2 + g.RefreshTokenExpiry))
      ∨ claims.Subject ≠ fmtSprint user.ID) :
    ∃ pair, generateTokenPair P g app user (now 1) (now 2) = Except.ok pair
      ∧ refreshUsingCookie P g app now resp req
        = writeJSON (SetCookie resp (issuedCookie g pair.RefreshToken (now 3)))
            StatusOK (Payload.tokenPairs pair)
      ∧ pair.RefreshToken ≠ cookie.Value := by
  rw [refreshUsingCookie_ok P g app now resp req cookie claims userID user hfind hparse
    hsub huser]
  refine ⟨_, generateTokenPair_eq P g app user (now 1) (now 2), rfl, ?_⟩
  intro heq
  simp only at heq
  rw [← heq, ParseWithClaims_refresh P hP g app user (now 2) (now 0) _ hx
    (refreshKeyFunc_HMAC app)] at hparse
  split at hparse
  · injection hparse with hparse
    rw [← hparse, claimsOfMap_refreshTokenClaims] at hdiff
    rcases hdiff with h | h
    · exact h rfl
    · exact h rfl
  · cases hparse

/-- C12, witness: the refresh token issued at the epoch, presented five seconds
later, is exchanged for another string. -/
theorem cookie_rotation_witness :
    ∃ pair, generateTokenPair refPrim defaultGlobals testApp testUser 5000000000 5000000000
        = Except.ok pair
      ∧ refreshUsingCookie refPrim defaultGlobals testApp (fun _ => 5000000000) newRecorder
          (cookieRequest [requestCookie refreshCookieName (testRefreshToken 0)])
        = writeJSON (SetCookie newRecorder
            (issuedCookie defaultGlobals pair.RefreshToken 5000000000))
            StatusOK (Payload.tokenPairs pair)
      ∧ pair.RefreshToken ≠ testRefreshToken 0 :=
  cookie_rotation refPrim refPrim_lawful defaultGlobals testApp (fun _ => 5000000000)
    newRecorder (cookieRequest [requestCookie refreshCookieName (testRefreshToken 0)])
    (requestCookie refreshCookieName (testRefreshToken 0))
    (claimsOfMap (refreshTokenClaims defaultGlobals testUser 0)) 1 testUser
    (cookieRequest_find _)
    (by
      show ParseWithClaims refPrim (testRefreshToken 0) (refreshKeyFunc testApp)
        5000000000 = _
      unfold testRefreshToken
      rw [ParseWithClaims_refresh refPrim refPrim_lawful defaultGlobals testApp testUser 0
        5000000000 _ (by decide) (refreshKeyFunc_HMAC testApp)]
      rfl)
    (by rw [claimsOfMap_refreshTokenClaims]; rfl)
    rfl
    (by decide)
    (Or.inl (by rw [claimsOfMap_refreshTokenClaims]; decide))

/-- C12, counterexample to the claim as stated: the refresh token
`generateTokenPair` issues at the epoch, presented in the cookie half a second
later, is exchanged with status 200 for a pair whose refresh token is the very
same string, since the new token has the same subject and the same `exp`. -/
theorem cookie_rotation_same_second :
    generateTokenPair refPrim defaultGlobals testApp testUser 0 0
        = Except.ok { AccessToken := testAccessToken 0, RefreshToken := testRefreshToken 0 }
    ∧ refreshUsingCookie refPrim defaultGlobals testApp (fun _ => 500000000) newRecorder
          (cookieRequest [requestCookie refreshCookieName (testRefreshToken 0)])
        = writeJSON (SetCookie newRecorder
            (issuedCookie defaultGlobals (testRefreshToken 0) 500000000))
            StatusOK
            (Payload.tokenPairs
              { AccessToken := testAccessToken 500000000
                RefreshToken := testRefreshToken 0 })
    ∧ (refreshUsingCookie refPrim defaultGlobals testApp (fun _ => 500000000) newRecorder
          (cookieRequest [requestCookie refreshCookieName (testRefreshToken 0)])).Code
        = some 200 := by
  have hr := refreshUsingCookie_ok refPrim defaultGlobals testApp (fun _ => 500000000)
    newRecorder (cookieRequest [requestCookie refreshCookieName (testRefreshToken 0)])
    (requestCookie refreshCookieName (testRefreshToken 0))
    (claimsOfMap (refreshTokenClaims defaultGlobals testUser 0)) 1 testUser
    (cookieRequest_find _)
    (by
      show ParseWithClaims refPrim (testRefreshToken 0) (refreshKeyFunc testApp)
        500000000 = _
      unfold testRefreshToken
      rw [ParseWithClaims_refresh refPrim refPrim_lawful defaultGlobals testApp testUser 0
        500000000 _ (by decide) (refreshKeyFunc_HMAC testApp)]
      rfl)
    (by rw [claimsOfMap_refreshTokenClaims]; rfl)
    rfl
  have hsame : refreshTokenClaims defaultGlobals testUser 500000000
      = refreshTokenClaims defaultGlobals testUser 0 := by
    rw [refreshTokenClaims_eq, refreshTokenClaims_eq]
    decide
  refine ⟨rfl, ?_, ?_⟩
  · rw [hr]
    unfold refreshed testRefreshToken testAccessToken
    rw [hsame]
  · rw [hr]
    exact refreshed_Code _ _ _ _ _ _ _ _ rfl

/-- C13, on the code: every cookie `authenticate`, `refresh` and
`refreshUsingCookie` add to the response is the refresh cookie, named
`__Host-refresh_token`, with path `/`, HttpOnly, Secure, SameSite strict and
`Expires` at the clock reading plus `RefreshTokenExpiry`; its `MaxAge` is
`int(RefreshTokenExpiry)`, the count of nanoseconds, which for the 24-hour
lifetime is 86400000000000 and not the 86400 seconds of the reference cookie
of the tests. -/
theorem refresh_cookie_attributes (P : Prim) (g : Globals) (app : Application)
    (readJSON : Request → Except String Credentials)
    (cmp : List Byte → List Byte → Except String Unit)
    (now : Nat → Int) (resp : ResponseWriter) (req : Request) :
    (∀ c ∈ (authenticate P g app readJSON cmp now resp req).Cookies,
      c ∈ resp.Cookies ∨ ∃ v, c = issuedCookie g v (now 2))
    ∧ (∀ r, refresh P g app now resp req = Served.returned r →
      ∀ c ∈ r.Cookies, c ∈ resp.Cookies ∨ ∃ v, c = issuedCookie g v (now 4))
    ∧ (∀ c ∈ (refreshUsingCookie P g app now resp req).Cookies,
      c ∈ resp.Cookies ∨ ∃ v, c = issuedCookie g v (now 3))
    ∧ (∀ v t, (issuedCookie g v t).Name = "__Host-refresh_token"
      ∧ (issuedCookie g v t).Value = v
      ∧ (issuedCookie g v t).Path = "/"
      ∧ (issuedCookie g v t).HttpOnly = true
      ∧ (issuedCookie g v t).Secure = true
      ∧ (issuedCookie g v t).SameSite = SameSite.SameSiteStrictMode
      ∧ (issuedCookie g v t).Expires = t + g.RefreshTokenExpiry
      ∧ (issuedCookie g v t).MaxAge = g.RefreshTokenExpiry)
    ∧ (∀ v t, (issuedCookie defaultGlobals v t).MaxAge = 86400000000000
      ∧ (goodCookie defaultGlobals v t).MaxAge = 86400) := by
  refine ⟨?_, ?_, ?_, ?_, ?_⟩
  · intro c hc
    exact authenticate_cookies P g app readJSON cmp now resp req c hc
  · intro r hr c hc
    exact refresh_cookies P g app now resp req r c hr hc
  · intro c hc
    exact refreshUsingCookie_cookies P g app now resp req c hc
  · intro v t
    exact ⟨rfl, rfl, rfl, rfl, rfl, rfl, rfl, rfl⟩
  · intro v t
    constructor
    · show defaultGlobals.RefreshTokenExpiry = 86400000000000
      decide
    · show defaultGlobals.RefreshTokenExpiry / Second = 86400
      decide

/-- C13, at the test's input: the one cookie `refreshUsingCookie` sets on the
request of the `valid cookie` row has `MaxAge` 86400000000000, where the
`goodCookie` of the test has 86400. -/
theorem refresh_cookie_attributes_witness :
    ∃ c, (refreshUsingCookie refPrim defaultGlobals testApp (fun _ => 0) newRecorder
        (cookieRequest [goodCookie defaultGlobals (testRefreshToken 0) 0])).Cookies = [c]
      ∧ c.Name = "__Host-refresh_token"
      ∧ c.MaxAge = 86400000000000
      ∧ (goodCookie defaultGlobals (testRefreshToken 0) 0).MaxAge = 86400 := by
  have hr := refreshUsingCookie_ok refPrim defaultGlobals testApp (fun _ => 0)
    newRecorder (cookieRequest [goodCookie defaultGlobals (testRefreshToken 0) 0])
    (goodCookie defaultGlobals (testRefreshToken 0) 0)
    (claimsOfMap (refreshTokenClaims defaultGlobals testUser 0)) 1 testUser
    (by simp [cookieRequest, goodCookie])
    (by
      show ParseWithClaims refPrim (testRefreshToken 0) (refreshKeyFunc testApp) 0 = _
      unfold testRefreshToken
      rw [ParseWithClaims_refresh refPrim refPrim_lawful defaultGlobals testApp testUser 0 0 _
        (by decide) (refreshKeyFunc_HMAC testApp)]
      rfl)
    (by rw [claimsOfMap_refreshTokenClaims]; rfl)
    rfl
  have h := (refresh_cookie_attributes refPrim defaultGlobals testApp testReadJSON
    acceptPassword (fun _ => 0) newRecorder
    (cookieRequest [goodCookie defaultGlobals (testRefreshToken 0) 0])).2.2.2.2
    (testRefreshToken 0) 0
  refine ⟨_, ?_, rfl, h.1, h.2⟩
  rw [hr, refreshed_Cookies]
  rfl

/-- C14: `deleteRefreshCookie` answers with status 202 and adds to the response
one cookie, named `__Host-refresh_token`, with an empty value, `Expires` at the
Unix epoch, which is before every clock reading after the epoch, and `MaxAge`
-1; the response is the same for every request. -/
theorem deleteRefreshCookie_clears (resp : ResponseWriter) (req : Request) :
    (∃ c, (deleteRefreshCookie resp req).Cookies = resp.Cookies ++ [c]
      ∧ c.Name = "__Host-refresh_token" ∧ c.Value = ""
      ∧ c.Expires = 0 ∧ (∀ now : Int, 0 < now → c.Expires < now)
      ∧ c.MaxAge = -1 ∧ c.MaxAge < 0)
    ∧ (resp.Code = none → (deleteRefreshCookie resp req).Code = some 202)
    ∧ (∀ req2, deleteRefreshCookie resp req2 = deleteRefreshCookie resp req) := by
  have h1 : (deleteRefreshCookie resp req).Cookies
      = resp.Cookies ++
        [{ Name := refreshCookieName
           Value := ""
           Path := "/"
           Domain := "localhost"
           Expires := timeUnix 0
           MaxAge := -1
           Secure := true
           HttpOnly := true
           SameSite := SameSite.SameSiteStrictMode }] := by
    unfold deleteRefreshCookie ResponseWriter.WriteHeader SetCookie
    simp only
    split <;> rfl
  refine ⟨⟨_, h1, rfl, rfl, rfl, fun now h => h, rfl, by decide⟩, ?_, ?_⟩
  · intro h
    unfold deleteRefreshCookie ResponseWriter.WriteHeader SetCookie
    simp only [h]
    rfl
  · intro req2
    rfl

/-- C15: the handler `enableCORS next` sets `Access-Control-Allow-Origin` to
`http://localhost:8090` on every request; for the method `OPTIONS` it also sets
the three other headers and returns a response in which `next` has no part;
for every other method it hands the request to `next`, with the header
`Access-Control-Allow-Credentials` as it found it. -/
theorem enableCORS_policy (next : Handler) (resp : ResponseWriter) (req : Request) :
    (req.Method = "OPTIONS" →
      (enableCORS next resp req).Header.Get "Access-Control-Allow-Origin"
        = "http://localhost:8090"
      ∧ (enableCORS next resp req).Header.Get "Access-Control-Allow-Credentials" = "true"
      ∧ (enableCORS next resp req).Header.Get "Access-Control-Allow-Methods"
        = "GET,POST,PUT,PATCH,DELETE,OPTIONS"
      ∧ (enableCORS next resp req).Header.Get "Access-Control-Allow-Headers"
        = "Accept, Content-Type, X-CSRF-Token, Authorization"
      ∧ (enableCORS next resp req).Code = resp.Code
      ∧ (enableCORS next resp req).Body = resp.Body
      ∧ (∀ next2 : Handler, enableCORS next2 resp req = enableCORS next resp req))
    ∧ (req.Method ≠ "OPTIONS" →
      enableCORS next resp req
        = next { resp with
            Header := resp.Header.Set "Access-Control-Allow-Origin" "http://localhost:8090" }
          req
      ∧ (resp.Header.Set "Access-Control-Allow-Origin" "http://localhost:8090").Get
          "Access-Control-Allow-Origin" = "http://localhost:8090"
      ∧ (resp.Header.Set "Access-Control-Allow-Origin" "http://localhost:8090").Get
          "Access-Control-Allow-Credentials"
        = resp.Header.Get "Access-Control-Allow-Credentials") := by
  constructor
  · intro hm
    have e : ∀ n : Handler, enableCORS n resp req
        = { resp with
            Header := (((resp.Header.Set "Access-Control-Allow-Origin"
              "http://localhost:8090").Set "Access-Control-Allow-Credentials" "true").Set
              "Access-Control-Allow-Methods" "GET,POST,PUT,PATCH,DELETE,OPTIONS").Set
              "Access-Control-Allow-Headers"
              "Accept, Content-Type, X-CSRF-Token, Authorization" } := by
      intro n
      unfold enableCORS
      simp only [hm, if_true]
    rw [e next]
    refine ⟨?_, ?_, ?_, ?_, rfl, rfl, fun next2 => e next2⟩
    · rw [Header_Get_Set_other _ _ _ _ (by decide), Header_Get_Set_other _ _ _ _ (by decide),
        Header_Get_Set_other _ _ _ _ (by decide), Header_Get_Set_self]
    · rw [Header_Get_Set_other _ _ _ _ (by decide), Header_Get_Set_other _ _ _ _ (by decide),
        Header_Get_Set_self]
    · rw [Header_Get_Set_other _ _ _ _ (by decide), Header_Get_Set_self]
    · rw [Header_Get_Set_self]
  · intro hm
    refine ⟨?_, Header_Get_Set_self _ _ _, Header_Get_Set_other _ _ _ _ (by decide)⟩
    unfold enableCORS
    simp only [hm, if_false]

/-- C16, as amended: in both refresh variants a presented token the parser
rejects is answered with status 400; a subject that is no decimal integer, and
a subject for which the lookup finds no user, are answered with status 400 by
`refreshUsingCookie` always and by `refresh` when the token carries an `exp` at
most 30 seconds after the clock reading of the renewal check; each of these
answers sets no cookie and carries the error document, not a token pair. -/
theorem refresh_failures_bad_request (P : Prim) (g : Globals) (app : Application)
    (now : Nat → Int) (resp : ResponseWriter) (req : Request) :
    (∀ form err, req.Form = Except.ok form →
      ParseWithClaims P (form.Get "refresh_token") (refreshKeyFunc app) (now 0)
        = Except.error err →
      refresh P g app now resp req = Served.returned (errorJSON resp err StatusBadRequest))
    ∧ (∀ form claims exp err, req.Form = Except.ok form →
      ParseWithClaims P (form.Get "refresh_token") (refreshKeyFunc app) (now 0)
        = Except.ok claims →
      claims.ExpiresAt = some exp → timeUnix exp - now 1 ≤ 30 * Second →
      strconvAtoi claims.Subject = Except.error err →
      refresh P g app now resp req = Served.returned (errorJSON resp err StatusBadRequest))
    ∧ (∀ form claims exp userID err, req.Form = Except.ok form →
      ParseWithClaims P (form.Get "refresh_token") (refreshKeyFunc app) (now 0)
        = Except.ok claims →
      claims.ExpiresAt = some exp → timeUnix exp - now 1 ≤ 30 * Second →
      strconvAtoi claims.Subject = Except.ok userID →
      app.DB.GetUser userID = Except.error err →
      refresh P g app now resp req
        = Served.returned (errorJSON resp "Unknown user" StatusBadRequest))
    ∧ (∀ cookie err,
      req.Cookies.find? (fun cookie => cookie.Name == refreshCookieName) = some cookie →
      ParseWithClaims P cookie.Value (refreshKeyFunc app) (now 0) = Except.error err →
      refreshUsingCookie P g app now resp req = errorJSON resp err StatusBadRequest)
    ∧ (∀ cookie claims err,
      req.Cookies.find? (fun cookie => cookie.Name == refreshCookieName) = some cookie →
      ParseWithClaims P cookie.Value (refreshKeyFunc app) (now 0) = Except.ok claims →
      strconvAtoi claims.Subject = Except.error err →
      refreshUsingCookie P g app now resp req = errorJSON resp err StatusBadRequest)
    ∧ (∀ cookie claims userID err,
      req.Cookies.find? (fun cookie => cookie.Name == refreshCookieName) = some cookie →
      ParseWithClaims P cookie.Value (refreshKeyFunc app) (now 0) = Except.ok claims →
      strconvAtoi claims.Subject = Except.ok userID →
      app.DB.GetUser userID = Except.error err →
      refreshUsingCookie P g app now resp req
        = errorJSON resp "Unknown user" StatusBadRequest)
    ∧ (∀ err, (resp.Code = none → (errorJSON resp err StatusBadRequest).Code = some 400)
      ∧ (errorJSON resp err StatusBadRequest).Cookies = resp.Cookies
      ∧ (errorJSON resp err StatusBadRequest).Body = some (Payload.error err)) := by
  refine ⟨?_, ?_, ?_, ?_, ?_, ?_, ?_⟩
  · intro form err hform hparse
    exact refresh_unparsed P g app now resp req form err hform hparse
  · intro form claims exp err hform hparse hexp hrem hsub
    rw [refresh_parsed P g app now resp req form claims exp hform hparse hexp,
      if_neg (not_lt.mpr hrem)]
    simp only [hsub]
  · intro form claims exp userID err hform hparse hexp hrem hsub huser
    rw [refresh_parsed P g app now resp req form claims exp hform hparse hexp,
      if_neg (not_lt.mpr hrem)]
    simp only [hsub, huser]
  · intro cookie err hfind hparse
    exact refreshUsingCookie_unparsed P g app now resp req cookie err hfind hparse
  · intro cookie claims err hfind hparse hsub
    exact refreshUsingCookie_badSubject P g app now resp req cookie claims err hfind hparse hsub
  · intro cookie claims userID err hfind hparse hsub huser
    exact refreshUsingCookie_unknownUser P g app now resp req cookie claims userID err hfind
      hparse hsub huser
  · intro err
    exact ⟨fun hc => errorJSON_Code resp err _ hc, errorJSON_Cookies resp err _,
      errorJSON_Body resp err _⟩

/-- C16, witness: the cookie value `someBadString` of the tests is answered
with status 400 and no cookie. -/
theorem refresh_failures_bad_request_witness :
    (refreshUsingCookie refPrim defaultGlobals testApp (fun _ => 0) newRecorder
        (cookieRequest [requestCookie refreshCookieName "someBadString"])).Code = some 400
    ∧ (refreshUsingCookie refPrim defaultGlobals testApp (fun _ => 0) newRecorder
        (cookieRequest [requestCookie refreshCookieName "someBadString"])).Cookies = [] := by
  have h := refresh_failures_bad_request refPrim defaultGlobals testApp
    (fun _ => 0) newRecorder
    (cookieRequest [requestCookie refreshCookieName "someBadString"])
  have h4 := h.2.2.2.1 (requestCookie refreshCookieName "someBadString")
    "token is malformed: token contains an invalid number of segments"
    (cookieRequest_find _) (by decide)
  rw [h4]
  exact ⟨rfl, rfl⟩

/-- C16, counterexample to the claim as stated: a refresh token correctly
signed for a user the lookup does not find, submitted in the form with 86400
seconds left, is answered with status 425 and not 400, since `refresh` checks
the renewal window before it looks at the subject. -/
theorem refresh_unknown_user_too_early :
    testApp.DB.GetUser 5 = Except.error "sql: no rows in result set"
    ∧ ParseWithClaims refPrim strangerRefreshToken (refreshKeyFunc testApp) 0
      = Except.ok (claimsOfMap (refreshTokenClaims defaultGlobals strangerUser 0))
    ∧ strconvAtoi (claimsOfMap (refreshTokenClaims defaultGlobals strangerUser 0)).Subject
      = Except.ok 5
    ∧ refresh refPrim defaultGlobals testApp (fun _ => 0) newRecorder
        (refreshRequest strangerRefreshToken)
      = Served.returned (errorJSON newRecorder "refresh token does not to be renewed yet"
          StatusTooEarly)
    ∧ (errorJSON newRecorder "refresh token does not to be renewed yet" StatusTooEarly).Code
      = some 425 := by
  have hp : ParseWithClaims refPrim strangerRefreshToken (refreshKeyFunc testApp) 0
      = Except.ok (claimsOfMap (refreshTokenClaims defaultGlobals strangerUser 0)) := by
    unfold strangerRefreshToken
    rw [ParseWithClaims_refresh refPrim refPrim_lawful defaultGlobals testApp strangerUser 0 0 _
      (by decide) (refreshKeyFunc_HMAC testApp)]
    rfl
  refine ⟨rfl, hp, by rw [claimsOfMap_refreshTokenClaims]; rfl, ?_, rfl⟩
  rw [refresh_parsed refPrim defaultGlobals testApp (fun _ => 0) newRecorder
    (refreshRequest strangerRefreshToken) [("refresh_token", [strangerRefreshToken])]
    (claimsOfMap (refreshTokenClaims defaultGlobals strangerUser 0)) 86400 rfl hp
    (by rw [claimsOfMap_refreshTokenClaims]; rfl),
    if_pos (by decide)]

/-- C17: `strconv.Atoi` of `fmt.Sprint` of an identifier in the range of `int`
is that identifier; hence for a token of a pair `generateTokenPair` minted for
`u` that the parser accepts, both refresh handlers look up the ID of `u` (their
answer is decided by that lookup), and when the lookup returns a user with that
ID, the `sub` claims of the new access and refresh token are the subject of the
presented token. -/
theorem subject_preserved (P : Prim) (hP : P.Lawful) (g : Globals) (app : Application)
    (u : User) (t1 t2 : Int) (pair : TokenPairs) (now : Nat → Int)
    (resp : ResponseWriter) (req : Request) (tok : String) (claims : Claims)
    (hid : isInt64 u.ID = true)
    (hgen : generateTokenPair P g app u t1 t2 = Except.ok pair)
    (hx1 : exactSeconds (unixSeconds (t1 + g.jwtTokenExpiry)) = true)
    (hx2 : exactSeconds (unixSeconds (t2 + g.RefreshTokenExpiry)) = true)
    (htok : tok = pair.AccessToken ∨ tok = pair.RefreshToken)
    (hparse : ParseWithClaims P tok (refreshKeyFunc app) (now 0) = Except.ok claims) :
    (∀ id, isInt64 id = true → strconvAtoi (fmtSprint id) = Except.ok id)
    ∧ claims.Subject = fmtSprint u.ID
    ∧ strconvAtoi claims.Subject = Except.ok u.ID
    ∧ (∀ cookie,
      req.Cookies.find? (fun cookie => cookie.Name == refreshCookieName) = some cookie →
      cookie.Value = tok →
      (∀ user, app.DB.GetUser u.ID = Except.ok user →
        refreshUsingCookie P g app now resp req
          = refreshed P g app (now 1) (now 2) (now 3) resp user)
      ∧ (∀ err, app.DB.GetUser u.ID = Except.error err →
        refreshUsingCookie P g app now resp req
          = errorJSON resp "Unknown user" StatusBadRequest))
    ∧ (∀ form exp, req.Form = Except.ok form → form.Get "refresh_token" = tok →
      claims.ExpiresAt = some exp → timeUnix exp - now 1 ≤ 30 * Second →
      (∀ user, app.DB.GetUser u.ID = Except.ok user →
        refresh P g app now resp req
          = Served.returned (refreshed P g app (now 2) (now 3) (now 4) resp user))
      ∧ (∀ err, app.DB.GetUser u.ID = Except.error err →
        refresh P g app now resp req
          = Served.returned (errorJSON resp "Unknown user" StatusBadRequest)))
    ∧ (∀ user n1 n2, user.ID = u.ID →
      mapGet (accessTokenClaims g app user n1) "sub" = some (JVal.str claims.Subject)
      ∧ mapGet (refreshTokenClaims g user n2) "sub" = some (JVal.str claims.Subject)) := by
  rw [generateTokenPair_eq] at hgen
  injection hgen with hgen
  subst hgen
  have hs : claims.Subject = fmtSprint u.ID :=
    minted_subject P hP g app u t1 t2 (now 0) (refreshKeyFunc app) tok claims hx1 hx2
      (refreshKeyFunc_HMAC app) htok hparse
  have ha : strconvAtoi claims.Subject = Except.ok u.ID := by
    rw [hs]
    exact strconvAtoi_fmtSprint u.ID hid
  refine ⟨fun id h => strconvAtoi_fmtSprint id h, hs, ha, ?_, ?_, ?_⟩
  · intro cookie hfind hval
    rw [← hval] at hparse
    constructor
    · intro user huser
      exact refreshUsingCookie_ok P g app now resp req cookie claims u.ID user hfind hparse
        ha huser
    · intro err huser
      exact refreshUsingCookie_unknownUser P g app now resp req cookie claims u.ID err hfind
        hparse ha huser
  · intro form exp hform hval hexp hrem
    rw [← hval] at hparse
    constructor
    · intro user huser
      exact refresh_ok P g app now resp req form claims exp u.ID user hform hparse hexp hrem
        ha huser
    · intro err huser
      rw [refresh_parsed P g app now resp req form claims exp hform hparse hexp,
        if_neg (not_lt.mpr hrem)]
      simp only [ha, huser]
  · intro user n1 n2 huid
    rw [mapGet_sub_access, mapGet_sub_refresh, hs, huid]
    exact ⟨rfl, rfl⟩

/-- C17, witness: the refresh token issued to the test user at the epoch,
presented at the epoch, has the subject `1`, which `strconv.Atoi` reads as 1. -/
theorem subject_preserved_witness :
    strconvAtoi (fmtSprint 1) = Except.ok 1
    ∧ (claimsOfMap (refreshTokenClaims defaultGlobals testUser 0)).Subject
      = fmtSprint testUser.ID
    ∧ strconvAtoi (claimsOfMap (refreshTokenClaims defaultGlobals testUser 0)).Subject
      = Except.ok testUser.ID := by
  obtain ⟨h1, h2, h3, _⟩ := subject_preserved refPrim refPrim_lawful defaultGlobals testApp
    testUser 0 0 { AccessToken := testAccessToken 0, RefreshToken := testRefreshToken 0 }
    (fun _ => 0) newRecorder
    (cookieRequest [requestCookie refreshCookieName (testRefreshToken 0)])
    (testRefreshToken 0) (claimsOfMap (refreshTokenClaims defaultGlobals testUser 0))
    (by decide) rfl (by decide) (by decide) (Or.inr rfl)
    (by
      unfold testRefreshToken
      rw [ParseWithClaims_refresh refPrim refPrim_lawful defaultGlobals testApp testUser 0 0 _
        (by decide) (refreshKeyFunc_HMAC testApp)]
      rfl)
  exact ⟨h1 1 (by decide), h2, h3⟩

/-- C18: the unexpired access token of a pair `generateTokenPair` minted for
`u`, presented as the value of the refresh cookie to an application with the
same secret (whatever its domain), makes `refreshUsingCookie` answer with
status 200, a new pair for the user the lookup of the ID of `u` returns, and a
refresh cookie that expires `RefreshTokenExpiry` (24 hours) after the clock
reading. -/
theorem access_token_as_refresh_cookie (P : Prim) (hP : P.Lawful) (g : Globals)
    (app1 app2 : Application) (u user : User) (t1 t2 : Int) (pair : TokenPairs)
    (now : Nat → Int) (resp : ResponseWriter) (req : Request) (cookie : Cookie)
    (hsecret : app2.JWTSecret = app1.JWTSecret)
    (hgen : generateTokenPair P g app1 u t1 t2 = Except.ok pair)
    (hfind : req.Cookies.find? (fun cookie => cookie.Name == refreshCookieName) = some cookie)
    (hval : cookie.Value = pair.AccessToken)
    (hx : exactSeconds (unixSeconds (t1 + g.jwtTokenExpiry)) = true)
    (hnow : now 0 < timeUnix (unixSeconds (t1 + g.jwtTokenExpiry)))
    (hid : isInt64 u.ID = true)
    (huser : app2.DB.GetUser u.ID = Except.ok user) :
    ∃ pair2, generateTokenPair P g app2 user (now 1) (now 2) = Except.ok pair2
      ∧ refreshUsingCookie P g app2 now resp req
        = writeJSON (SetCookie resp (issuedCookie g pair2.RefreshToken (now 3)))
            StatusOK (Payload.tokenPairs pair2)
      ∧ (resp.Code = none → (refreshUsingCookie P g app2 now resp req).Code = some 200)
      ∧ (refreshUsingCookie P g app2 now resp req).Body = some (Payload.tokenPairs pair2)
      ∧ (issuedCookie g pair2.RefreshToken (now 3)).Expires = now 3 + g.RefreshTokenExpiry
      ∧ (g.RefreshTokenExpiry = Hour * 24 →
        (issuedCookie g pair2.RefreshToken (now 3)).Expires = now 3 + Hour * 24) := by
  rw [generateTokenPair_eq] at hgen
  injection hgen with hgen
  subst hgen
  have hkf : ∀ t : Token, t.Method = SigningMethod.HMAC HashAlg.SHA256 →
      refreshKeyFunc app2 t = Except.ok (stringBytes app1.JWTSecret) := by
    intro t _
    unfold refreshKeyFunc
    rw [hsecret]
  have hparse : ParseWithClaims P cookie.Value (refreshKeyFunc app2) (now 0)
      = Except.ok (claimsOfMap (accessTokenClaims g app1 u t1)) := by
    rw [hval, ParseWithClaims_access P hP g app1 u t1 (now 0) _ hx hkf, if_pos hnow]
  have hsub : strconvAtoi (claimsOfMap (accessTokenClaims g app1 u t1)).Subject
      = Except.ok u.ID := by
    rw [claimsOfMap_accessTokenClaims]
    exact strconvAtoi_fmtSprint u.ID hid
  have hr := refreshUsingCookie_ok P g app2 now resp req cookie _ u.ID user hfind hparse
    hsub huser
  rw [hr]
  refine ⟨_, generateTokenPair_eq P g app2 user (now 1) (now 2), rfl, ?_, ?_, rfl, ?_⟩
  · intro hc
    exact refreshed_Code P g app2 _ _ _ resp user hc
  · unfold refreshed
    rw [writeJSON_Body]
  · intro hg
    show now 3 + g.RefreshTokenExpiry = now 3 + Hour * 24
    rw [hg]

/-- C18, witness: the access token issued to the test user at the epoch is
exchanged by `refreshUsingCookie`, under another configured domain, with status
200. -/
theorem access_token_as_refresh_cookie_witness :
    (refreshUsingCookie refPrim defaultGlobals { testApp with Domain := "anotherdomain.com" }
        (fun _ => 0) newRecorder
        (cookieRequest [requestCookie refreshCookieName (testAccessToken 0)])).Code
      = some 200 := by
  obtain ⟨_, _, _, h3, _⟩ := access_token_as_refresh_cookie refPrim refPrim_lawful
    defaultGlobals testApp { testApp with Domain := "anotherdomain.com" } testUser testUser
    0 0 { AccessToken := testAccessToken 0, RefreshToken := testRefreshToken 0 }
    (fun _ => 0) newRecorder
    (cookieRequest [requestCookie refreshCookieName (testAccessToken 0)])
    (requestCookie refreshCookieName (testAccessToken 0))
    rfl rfl (cookieRequest_find _) rfl (by decide) (by decide) (by decide) rfl
  exact h3 rfl

end RestApi
